import Mathlib

/-!
# Ledger command relay and login glue of the wallet

A shallow embedding of `app/src/hw/ledger.js` and of the two methods
`getReferrerRoute` and `ledgerLogin` of `src/components/login/login.js`.

* JavaScript values are plain data (`JSVal`): no getters, proxies or patched
  prototypes.  Strings are Lean strings, one `Char` for one character of the
  JavaScript string.
* A promise is modelled by its settlement: an `async` function is a state
  transformer that ends in a value (resolved) or in a thrown value (rejected).
  One call runs from start to end; the interleaving of several
  `executeLedgerCommand` calls is modelled by `Flight`, which runs the callback
  of each call in its two parts, before and after the `await`.
* Everything the code does to the outside (opening and closing a transport,
  vendor calls, `win.send`) is appended to a log, and everything the outside
  answers is read from a `World`: the transport library, the vendor SDK, and the
  helpers of `./utils` and `./hwManager`.  Any of `open`, the constructors, the
  vendor calls and `close` may fail with an arbitrary value; what the vendor
  calls resolve with is typed as the SDK declares it.
-/

namespace Ledger

/-! ## JavaScript values -/

/-- Plain JavaScript data.  Numbers are integers (no `NaN`, no fractions). -/
inductive JSVal where
  | undefined
  | null
  | bool (b : Bool)
  | num (n : Int)
  | str (s : String)
  | obj (fields : List (String × JSVal))

/-- JavaScript truthiness (`if (v)`, `v && ...`, `!v`). -/
def JSVal.truthy : JSVal → Bool
  | .undefined => false
  | .null => false
  | .bool b => b
  | .num n => n != 0
  | .str s => s != ""
  | .obj _ => true

/-- The test `typeof v === 'string'`. -/
def JSVal.isString : JSVal → Bool
  | .str _ => true
  | _ => false

/-- The test `v === 'lit'` against a string literal. -/
def JSVal.strictEqStr : JSVal → String → Bool
  | .str s, lit => s == lit
  | _, _ => false

/-- Own-property lookup in an object literal; a missing key reads `undefined`. -/
def lookup : List (String × JSVal) → String → JSVal
  | [], _ => .undefined
  | (k, v) :: rest, key => if k = key then v else lookup rest key

/-- The `TypeError` that reading a property of `null` or `undefined` throws. -/
def typeError : JSVal :=
  .obj [("name", .str "TypeError")]

/-- Property read `v.key`: throws a `TypeError` on `null` and `undefined`, reads
the field of an object, and is `undefined` on the other primitives (which have
none of the properties read in this code). -/
def getProp (v : JSVal) (key : String) : Except JSVal JSVal :=
  match v with
  | .undefined => .error typeError
  | .null => .error typeError
  | .obj fields => .ok (lookup fields key)
  | _ => .ok .undefined

/-- JavaScript `s.substring(a, b)` for non-negative integer arguments: both are
clamped to the length and swapped when out of order. -/
def substring (s : String) (a b : Nat) : String :=
  let n := s.data.length
  let lo := min (min a n) (min b n)
  let hi := max (min a n) (min b n)
  String.mk ((s.data.drop lo).take (hi - lo))

/-! ## Vendor SDK and transport -/

/-- Bytes of a Node `Buffer`. -/
abbrev Buffer := List Nat

/-- The coins of `dpos-ledger-api`; only `LISK` is used. -/
inductive SupportedCoin where
  | LISK
  deriving DecidableEq

/-- A `LedgerAccount` after `coinIndex(..)` and `account(..)`. -/
structure LedgerAccount where
  coinIndex : SupportedCoin
  account : JSVal

/-- What `DposLedger.getPubKey` resolves with, as the SDK declares it. -/
structure LiskAccount where
  publicKey : String
  address : String

/-- Behaviour of one opened transport and of the `DposLedger` built on it. -/
structure Session where
  /-- The value that `new DposLedger(transport)` throws, if any. -/
  newDposLedger : Option JSVal
  getPubKey : LedgerAccount → JSVal → Except JSVal LiskAccount
  signMSG : LedgerAccount → JSVal → Except JSVal Buffer
  signTX : LedgerAccount → Buffer → Bool → Except JSVal Buffer
  /-- The `k`-th call (from 0) of `transport.close()` throws this value, if any. -/
  close : Nat → Option JSVal

/-- A device descriptor of `hwManager`, fields in constructor order. -/
structure HWDevice where
  deviceId : String
  label : JSVal
  model : String
  path : JSVal

/-- Everything outside `ledger.js`: the transport library, the vendor SDK, and
the helpers imported from `./utils` and `./hwManager`. -/
structure World where
  /-- The call `TransportNodeHid.open(path)`, by the number of earlier `open` calls. -/
  hidOpen : Nat → JSVal → Except JSVal Session
  /-- The value that `ledgerAccount.account(index)` throws, if any. -/
  accountThrows : JSVal → Option JSVal
  isValidAddress : String → Bool
  getBufferToHex : Buffer → String
  getTransactionBytes : JSVal → Except JSVal Buffer
  addConnectedDevices : List HWDevice → HWDevice → List HWDevice
  removeConnectedDeviceByPath : List HWDevice → JSVal → List HWDevice
  getDeviceByPath : List HWDevice → JSVal → Option HWDevice

/-- What the code does to the outside, in order. -/
inductive Effect where
  | hidOpen (path : JSVal)
  | close (transport : Nat)
  | getPubKey (account : LedgerAccount) (showOnDevice : JSVal)
  | signMSG (account : LedgerAccount) (message : JSVal)
  | signTX (account : LedgerAccount) (tx : Buffer) (flag : Bool)
  | send (event : String)

/-- Is the effect a `close` of the given transport? -/
def Effect.isCloseOf (t : Nat) : Effect → Bool
  | .close u => u == t
  | _ => false

/-- Is the effect a `close` of any transport? -/
def Effect.isClose : Effect → Bool
  | .close _ => true
  | _ => false

/-- Module state of `ledger.js` together with the state of `hwManager`. -/
structure St where
  /-- The module variable `busy`. -/
  busy : Bool
  /-- Number of `TransportNodeHid.open` calls made so far. -/
  opens : Nat
  /-- The connected devices kept by `hwManager`. -/
  devices : List HWDevice
  log : List Effect

/-- The start of the module: `let busy = false`, nothing connected. -/
def St.init : St :=
  ⟨false, 0, [], []⟩

/-- The callback given to `setListenDevicesPollingSkip`: `() => busy`. -/
def pollingSkip (s : St) : Bool :=
  s.busy

/-! ## Computations that may throw -/

/-- End of a computation: a value, or a thrown (rejected) value. -/
inductive Res (α : Type) where
  | ok (a : α) (s : St)
  | throw (e : JSVal) (s : St)

/-- The state after a computation. -/
def Res.state {α : Type} : Res α → St
  | .ok _ s => s
  | .throw _ s => s

/-- A computation over the module state. -/
def M (α : Type) : Type :=
  St → Res α

/-- Sequencing: a throw skips the rest. -/
def M.bind {α β : Type} (x : M α) (f : α → M β) : M β :=
  fun s => match x s with
    | .ok a s1 => f a s1
    | .throw e s1 => .throw e s1

instance : Monad M where
  pure a := fun s => .ok a s
  bind := M.bind

/-- The statement `throw e` (or `return Promise.reject(e)` of an async function). -/
def raise {α : Type} (e : JSVal) : M α :=
  fun s => .throw e s

/-- The statement `try { body } catch (err) { handler }`. -/
def tryCatchM {α : Type} (body : M α) (handler : JSVal → M α) : M α :=
  fun s => match body s with
    | .ok a s1 => .ok a s1
    | .throw e s1 => handler e s1

/-- Lift of a pure result that may be an exception. -/
def liftE {α : Type} : Except JSVal α → M α
  | .ok a => pure a
  | .error e => raise e

/-- Append an effect to the log. -/
def emit (e : Effect) : M Unit :=
  fun s => .ok () { s with log := s.log ++ [e] }

/-- Assignment `busy = b`. -/
def setBusy (b : Bool) : M Unit :=
  fun s => .ok () { s with busy := b }

/-- The call `win.send({ event, value: null })`, an effect that does not throw. -/
def winSend (event : String) : M Unit :=
  emit (.send event)

/-- The call `TransportNodeHid.open(path)`; the transport is named by the number of the call. -/
def hidOpen (w : World) (path : JSVal) : M (Nat × Session) :=
  fun s =>
    let s1 := { s with opens := s.opens + 1, log := s.log ++ [Effect.hidOpen path] }
    match w.hidOpen s.opens path with
    | .ok sess => .ok (s.opens, sess) s1
    | .error e => .throw e s1

/-- The call `transport.close()` on transport `t`. -/
def transportClose (t : Nat) (sess : Session) : M Unit :=
  fun s =>
    let k := (s.log.filter (Effect.isCloseOf t)).length
    let s1 := { s with log := s.log ++ [Effect.close t] }
    match sess.close k with
    | none => .ok () s1
    | some e => .throw e s1

/-- The expression `new DposLedger(transport)`. -/
def newDposLedger (sess : Session) : M Unit :=
  match sess.newDposLedger with
  | none => pure ()
  | some e => raise e

/-- The default of the parameter in `getLedgerAccount(index = 0)`. -/
def defaultIndex : JSVal → JSVal
  | .undefined => .num 0
  | v => v

/-- The function `getLedgerAccount(index = 0)`. -/
def getLedgerAccount (w : World) (index : JSVal) : M LedgerAccount :=
  match w.accountThrows (defaultIndex index) with
  | none => pure ⟨SupportedCoin.LISK, defaultIndex index⟩
  | some e => raise e

/-- The call `await liskLedger.getPubKey(ledgerAccount, showOnDevice)`. -/
def getPubKey (sess : Session) (a : LedgerAccount) (showOnDevice : JSVal) : M LiskAccount := do
  emit (.getPubKey a showOnDevice)
  liftE (sess.getPubKey a showOnDevice)

/-- The call `await liskLedger.signMSG(ledgerAccount, message)`. -/
def signMSG (sess : Session) (a : LedgerAccount) (message : JSVal) : M Buffer := do
  emit (.signMSG a message)
  liftE (sess.signMSG a message)

/-- The call `await liskLedger.signTX(ledgerAccount, tx, flag)`. -/
def signTX (sess : Session) (a : LedgerAccount) (tx : Buffer) (flag : Bool) : M Buffer := do
  emit (.signTX a tx flag)
  liftE (sess.signTX a tx flag)

/-! ## `executeLedgerCommand` -/

/-- The string code for a user refusal. -/
def LEDGER_ACTION_DENIED_BY_USER : String :=
  "LEDGER_ACTION_DENIED_BY_USER"

/-- The string code for every other failure. -/
def LEDGER_ERR_DURING_CONNECTION : String :=
  "LEDGER_ERR_DURING_CONNECTION"

/-- Lines 124-127: `if (command.action === 'GET_PUBLICKEY') { ... }`, from the
current value of `res` to the next. -/
def ifGetPublicKey (sess : Session) (command : JSVal) (ledgerAccount : LedgerAccount)
    (res : JSVal) : M JSVal := do
  if (← liftE (getProp command "action")).strictEqStr "GET_PUBLICKEY" then
    let data ← liftE (getProp command "data")
    let showOnDevice ← liftE (getProp data "showOnDevice")
    let r ← getPubKey sess ledgerAccount showOnDevice
    return .str r.publicKey
  else
    return res

/-- Lines 128-131: `if (command.action === 'GET_ADDRESS') { ... }`. -/
def ifGetAddress (sess : Session) (command : JSVal) (ledgerAccount : LedgerAccount)
    (res : JSVal) : M JSVal := do
  if (← liftE (getProp command "action")).strictEqStr "GET_ADDRESS" then
    let data ← liftE (getProp command "data")
    let showOnDevice ← liftE (getProp data "showOnDevice")
    let r ← getPubKey sess ledgerAccount showOnDevice
    return .str r.address
  else
    return res

/-- Lines 132-136: `if (command.action === 'SIGN_MSG') { ... }`. -/
def ifSignMsg (w : World) (sess : Session) (command : JSVal) (ledgerAccount : LedgerAccount)
    (res : JSVal) : M JSVal := do
  if (← liftE (getProp command "action")).strictEqStr "SIGN_MSG" then
    winSend "ledgerButtonCallback"
    let data ← liftE (getProp command "data")
    let message ← liftE (getProp data "message")
    let signature ← signMSG sess ledgerAccount message
    return .str (w.getBufferToHex (signature.take 64))
  else
    return res

/-- Lines 137-142: `if (command.action === 'SIGN_TX') { ... }`. -/
def ifSignTx (w : World) (sess : Session) (command : JSVal) (ledgerAccount : LedgerAccount)
    (res : JSVal) : M JSVal := do
  if (← liftE (getProp command "action")).strictEqStr "SIGN_TX" then
    winSend "ledgerButtonCallback"
    let data ← liftE (getProp command "data")
    let tx ← liftE (getProp data "tx")
    let bytes ← liftE (w.getTransactionBytes tx)
    let signature ← signTX sess ledgerAccount bytes false
    return .str (w.getBufferToHex signature)
  else
    return res

/-- Lines 120-142: the `try` block up to, not including, `transport.close()`.
The variable `res` is threaded through the four `if` statements. -/
def commandRequest (w : World) (sess : Session) (command : JSVal) : M JSVal := do
  newDposLedger sess
  let data ← liftE (getProp command "data")
  let index ← liftE (getProp data "index")
  let ledgerAccount ← getLedgerAccount w index
  let res := JSVal.undefined
  let res ← ifGetPublicKey sess command ledgerAccount res
  let res ← ifGetAddress sess command ledgerAccount res
  let res ← ifSignMsg w sess command ledgerAccount res
  let res ← ifSignTx w sess command ledgerAccount res
  return res

/-- The state in which the `try` block starts: `open` has resolved and line 117
has set `busy`. -/
def tryStart (s : St) (path : JSVal) : St :=
  { busy := true, opens := s.opens + 1, devices := s.devices,
    log := s.log ++ [Effect.hidOpen path] }

/-- The `try` block of the `then` callback (lines 120-145). -/
def commandTry (w : World) (t : Nat) (sess : Session) (command : JSVal) : M JSVal := do
  let res ← commandRequest w sess command
  transportClose t sess
  setBusy false
  return res

/-- The `catch (err)` block of the `then` callback (lines 147-152). -/
def commandCatch (t : Nat) (sess : Session) (err : JSVal) : M JSVal := do
  transportClose t sess
  setBusy false
  let statusText ← liftE (getProp err "statusText")
  if statusText.truthy && statusText.strictEqStr "CONDITIONS_OF_USE_NOT_SATISFIED" then
    raise (.str LEDGER_ACTION_DENIED_BY_USER)
  else
    raise (.str LEDGER_ERR_DURING_CONNECTION)

/-- The `async (transport) => ...` callback given to `then` (lines 116-154). -/
def onOpened (w : World) (t : Nat) (sess : Session) (command : JSVal) : M JSVal := do
  setBusy true
  tryCatchM (commandTry w t sess command) (commandCatch t sess)

/-- The handler given to the final `.catch` (lines 155-160). -/
def onRejected (e : JSVal) : M JSVal :=
  if e.isString then raise e else raise (.str LEDGER_ERR_DURING_CONNECTION)

/-- How a call of a promise-returning function ends. -/
inductive Outcome where
  /-- The returned promise resolved. -/
  | resolved (v : JSVal)
  /-- The returned promise rejected. -/
  | rejected (e : JSVal)
  /-- The call threw before returning a promise. -/
  | threw (e : JSVal)

/-- The promise chain `open(path).then(onOpened).catch(onRejected)`. -/
def commandChain (w : World) (path command : JSVal) : M JSVal :=
  tryCatchM (do
      let (t, sess) ← hidOpen w path
      onOpened w t sess command)
    onRejected

/-- The exported `executeLedgerCommand(device, command)`. -/
def executeLedgerCommand (w : World) (device command : JSVal) (s : St) : Outcome × St :=
  match getProp device "path" with
  | .error e => (.threw e, s)
  | .ok path =>
    match commandChain w path command s with
    | .ok v s1 => (.resolved v, s1)
    | .throw e s1 => (.rejected e, s1)

/-! ## The device listener -/

/-- The function `getLiskAccount(path)`.  The variable `transport` is set only
when `open` resolved: a failure of `open` reaches the `catch` with `transport`
unset, a later failure reaches it with the transport to close.  `null` is `none`. -/
def getLiskAccount (w : World) (path : JSVal) : M (Option LiskAccount) :=
  fun s =>
    match hidOpen w path s with
    | .throw _ s1 => .ok none s1
    | .ok (t, sess) s1 =>
      tryCatchM (do
          newDposLedger sess
          let ledgerAccount ← getLedgerAccount w (.num 0)
          let liskAccount ← getPubKey sess ledgerAccount .undefined
          transportClose t sess
          return some liskAccount)
        (fun _ => do
          transportClose t sess
          return none) s1

/-- The function `createLedgerHWDevice(liskAccount, path)`; reading `publicKey`
of `null` throws. -/
def createLedgerHWDevice (liskAccount : Option LiskAccount) (path : JSVal) :
    Except JSVal HWDevice :=
  match liskAccount with
  | none => .error typeError
  | some a => .ok ⟨substring a.publicKey 0 10, .null, "Ledger Nano S", path⟩

/-- The function `isInsideLedgerApp(path)`. -/
def isInsideLedgerApp (w : World) (path : JSVal) : M Bool := do
  let liskAccount ← getLiskAccount w path
  match liskAccount with
  | some a => return w.isValidAddress a.address
  | none => return false

/-- The call `addConnectedDevices(device)` of `hwManager`. -/
def addConnectedDevices (w : World) (d : HWDevice) : M Unit :=
  fun s => .ok () { s with devices := w.addConnectedDevices s.devices d }

/-- The call `removeConnectedDeviceByPath(path)` of `hwManager`. -/
def removeConnectedDeviceByPath (w : World) (path : JSVal) : M Unit :=
  fun s => .ok () { s with devices := w.removeConnectedDeviceByPath s.devices path }

/-- The call `getDeviceByPath(path)` of `hwManager`; `undefined` is `none`. -/
def getDeviceByPath (w : World) (path : JSVal) : M (Option HWDevice) :=
  fun s => .ok (w.getDeviceByPath s.devices path) s

/-- The argument `{ device, type }` of the observer. -/
structure DeviceEvent where
  device : JSVal
  type : JSVal

/-- The handler `ledgerObserver.next` (lines 76-92), on `process.platform`. -/
def ledgerObserver.next (w : World) (platform : String) (ev : DeviceEvent) : M Unit := do
  if ev.device.truthy then
    if ev.type.strictEqStr "add" then
      let inside ←
        if platform == "darwin" then pure true
        else do
          let path ← liftE (getProp ev.device "path")
          isInsideLedgerApp w path
      if inside then
        let path ← liftE (getProp ev.device "path")
        let liskAccount ← getLiskAccount w path
        let path ← liftE (getProp ev.device "path")
        let ledgerDevice ← liftE (createLedgerHWDevice liskAccount path)
        addConnectedDevices w ledgerDevice
        winSend "ledgerConnected"
    else if ev.type.strictEqStr "remove" then
      let path ← liftE (getProp ev.device "path")
      if (← getDeviceByPath w path).isSome then
        let path ← liftE (getProp ev.device "path")
        removeConnectedDeviceByPath w path
        winSend "ledgerDisconnected"

/-! ## Commands in flight and the flag `busy` -/

/-- Lines 117-142: the `then` callback from its start to the settled vendor
request.  The callback is suspended inside this part, at the `await` of the
vendor call, and nothing in it after the `await` touches the state. -/
def commandEnter (w : World) (sess : Session) (command : JSVal) : M JSVal := do
  setBusy true
  commandRequest w sess command

/-- Lines 143-152: the rest of the `then` callback, from how the request
settled: `close`, `busy = false` and the result, or the `catch` block. -/
def commandLeave (t : Nat) (sess : Session) : Res JSVal → Res JSVal
  | .ok res s =>
    tryCatchM (do
        transportClose t sess
        setBusy false
        return res)
      (commandCatch t sess) s
  | .throw err s => commandCatch t sess err s

/-- A command whose transport is open and not yet closed: its number, its
transport, and how its request settled. -/
structure Pending where
  id : Nat
  transport : Nat
  sess : Session
  settled : Except JSVal JSVal

/-- The settled request of a pending command, resumed in the state `s`. -/
def Pending.resume (p : Pending) (s : St) : Res JSVal :=
  match p.settled with
  | .ok res => .ok res s
  | .error err => .throw err s

/-- The two moments of an `executeLedgerCommand` call, for the command numbered
`c`.  A callback that fails before its `await`, or has none, is cut at the same
place, so the interleavings of the model include those of the code. -/
inductive Step where
  /-- The transport of `c` has opened: `open` resolves and the callback runs up
  to its `await` (`commandEnter`). -/
  | opened (c : Nat) (path command : JSVal)
  /-- The command `c` has finished: the callback runs from its `await` to its
  end (`commandLeave`). -/
  | finished (c : Nat)

/-- The module state with the commands in flight. -/
structure Flight where
  st : St
  inFlight : List Pending

/-- Nothing in flight at the start of the module. -/
def Flight.init : Flight :=
  ⟨St.init, []⟩

/-- One step, run on the current module state; `none` when the step cannot
happen (a command opens once and only if `open` resolves, and finishes only
after it opened). -/
def Flight.step (w : World) (f : Flight) : Step → Option Flight
  | .opened c path command =>
    if f.inFlight.any (fun p => p.id == c) then none
    else
      match hidOpen w path f.st with
      | .throw _ _ => none
      | .ok (t, sess) s1 =>
        match commandEnter w sess command s1 with
        | .ok res s2 => some ⟨s2, ⟨c, t, sess, .ok res⟩ :: f.inFlight⟩
        | .throw err s2 => some ⟨s2, ⟨c, t, sess, .error err⟩ :: f.inFlight⟩
  | .finished c =>
    match f.inFlight.find? (fun p => p.id == c) with
    | none => none
    | some p =>
      some ⟨(commandLeave p.transport p.sess (p.resume f.st)).state,
        f.inFlight.filter (fun q => q.id != c)⟩

/-- An interleaving of steps, from left to right. -/
def Flight.run (w : World) (f : Flight) : List Step → Option Flight
  | [] => some f
  | st :: rest =>
    match f.step w st with
    | none => none
    | some g => g.run w rest

/-- No two commands overlap: a transport opens only when none is in flight. -/
def sequential (w : World) (f : Flight) : List Step → Bool
  | [] => true
  | st :: rest =>
    match f.step w st with
    | none => false
    | some g =>
      (match st with
        | .opened _ _ _ => f.inFlight.isEmpty
        | .finished _ => true) && sequential w g rest

end Ledger

/-! ## The login component -/

namespace Login

open Ledger

/-- JavaScript `s.indexOf(pat)` on character lists, counted from `k`:
the first position where `pat` occurs, or `-1`. -/
def indexOfFrom (pat : List Char) : List Char → Nat → Int
  | [], k => if pat.isEmpty then (k : Int) else -1
  | c :: cs, k => if pat.isPrefixOf (c :: cs) then (k : Int) else indexOfFrom pat cs (k + 1)

/-- JavaScript `s.indexOf(pat)`. -/
def indexOf (s pat : String) : Int :=
  indexOfFrom pat.data s.data 0

/-- The first occurrence of `pat` replaced by `repl`, on character lists. -/
def replaceFirst (pat repl : List Char) : List Char → List Char
  | [] => if pat.isEmpty then repl else []
  | c :: cs =>
    if pat.isPrefixOf (c :: cs) then repl ++ (c :: cs).drop pat.length
    else c :: replaceFirst pat repl cs

/-- JavaScript `s.replace(pat, repl)` for a string pattern and a replacement
without `$` patterns: only the first occurrence is replaced. -/
def replace (s pat repl : String) : String :=
  String.mk (replaceFirst pat.data repl.data s.data)

/-- The method `Login.getReferrerRoute()`, from `this.props.account.isDelegate`
and `this.props.history.location.search`. -/
def getReferrerRoute (isDelegate : JSVal) (search : String) : String :=
  let transactionRoute := "/main/transactions"
  let referrerRoute :=
    if indexOf search "?referrer" = 0 then replace search "?referrer=" "" else transactionRoute
  if !isDelegate.truthy && referrerRoute == "/main/forging" then transactionRoute
  else referrerRoute

/-- The `hwInfo` object of a login. -/
structure HwInfo where
  deviceId : String
  derivationIndex : Nat

/-- What `ledgerLogin` does to the outside, in order. -/
inductive LoginEffect where
  | loadingStarted (key : String)
  | loadingFinished (key : String)
  | errorToastDisplayed (label : String)
  | activePeerSet (publicKey : String) (loginType : JSVal)
      (network : List (String × JSVal)) (hwInfo : HwInfo)

/-- The part of `this.state` that `ledgerLogin` reads. -/
structure LoginState where
  address : String
  network : Int

/-- What `login.js` imports and `ledgerLogin` uses. -/
structure LoginEnv where
  /-- The translation `i18next.t`. -/
  t : String → String
  /-- The function `getNetwork(code)`, as the own properties of its result. -/
  getNetwork : Int → List (String × JSVal)
  /-- The constant `networks.customNode.code`. -/
  customNodeCode : Int
  /-- The constant `loginTypes.ledgerNano`. -/
  ledgerNano : JSVal
  /-- The string a value becomes inside a template literal. -/
  toStr : JSVal → String

/-- The assignment `obj.key = v` on own properties. -/
def setField (key : String) (v : JSVal) : List (String × JSVal) → List (String × JSVal)
  | [] => [(key, v)]
  | (k, x) :: rest => if k = key then (key, v) :: rest else (k, x) :: setField key v rest

/-- The method `Login.ledgerLogin()`, from the pair `[error, ledgerPublicKey]`
that `await to(getPublicKeyFromLedgerIndex())` gives.  The result is the list of
effects and the value thrown, if any. -/
def ledgerLogin (env : LoginEnv) (state : LoginState) (error ledgerPublicKey : JSVal) :
    List LoginEffect × Option JSVal :=
  let started := [LoginEffect.loadingStarted "ledgerLogin"]
  if error.truthy then
    let message := match getProp error "message" with
      | .ok m => m
      | .error _ => JSVal.undefined
    let text :=
      if message.truthy then env.toStr message ++ "." else env.t "Error during login with Ledger."
    (started ++ [.errorToastDisplayed text, .loadingFinished "ledgerLogin"], none)
  else
    let network0 := env.getNetwork state.network
    let network :=
      if state.network = env.customNodeCode then setField "address" (.str state.address) network0
      else network0
    match ledgerPublicKey with
    | .str pk =>
      (started ++ [.activePeerSet pk env.ledgerNano network ⟨Ledger.substring pk 0 10, 0⟩,
        .loadingFinished "ledgerLogin"], none)
    | _ => (started, some typeError)

end Login

/-! ## Concrete transports, worlds and commands -/

namespace Ledger

/-- Number of `transport.close()` calls in a log. -/
def closeCalls (log : List Effect) : Nat :=
  (log.filter Effect.isClose).length

/-- The number of calls of `transport.close()` on transport `t` made so far:
the index of the next one. -/
def closeIndex (t : Nat) (s : St) : Nat :=
  (s.log.filter (Effect.isCloseOf t)).length

/-- A computation that never calls `transport.close()`. -/
def Quiet {α : Type} (x : M α) : Prop :=
  ∀ s, closeCalls (x s).state.log = closeCalls s.log

/-- A computation that never assigns `busy`. -/
def Steady {α : Type} (x : M α) : Prop :=
  ∀ s, (x s).state.busy = s.busy

/-- The error of a request the user refused on the device. -/
def refusal : JSVal :=
  .obj [("statusText", .str "CONDITIONS_OF_USE_NOT_SATISFIED")]

/-- An `Error` object without `statusText`. -/
def plainError : JSVal :=
  .obj [("message", .str "device unplugged")]

/-- A transport whose vendor calls all answer like `r` and whose `close` behaves like `c`. -/
def sessionOf (r : Except JSVal Unit) (c : Nat → Option JSVal) : Session where
  newDposLedger := none
  getPubKey := fun _ _ => r.map fun _ => ⟨"0a1b2c3d4e5f60718293", "123456L"⟩
  signMSG := fun _ _ => r.map fun _ => List.range 70
  signTX := fun _ _ _ => r.map fun _ => [222, 173]
  close := c

/-- Two paths that are the same string. -/
def samePath : JSVal → JSVal → Bool
  | .str a, .str b => a == b
  | _, _ => false

/-- A world in which every `open` ends like `o`, with a sample `hwManager` that
keeps the devices in a list and finds them by path. -/
def worldOf (o : Except JSVal Session) : World where
  hidOpen := fun _ _ => o
  accountThrows := fun _ => none
  isValidAddress := fun a => a.data.getLast? == some 'L'
  getBufferToHex := fun b =>
    String.mk (b.flatMap fun n => [Nat.digitChar (n / 16 % 16), Nat.digitChar (n % 16)])
  getTransactionBytes := fun _ => .ok [1, 2, 3]
  addConnectedDevices := fun ds d => ds ++ [d]
  removeConnectedDeviceByPath := fun ds p => ds.filter fun d => !samePath d.path p
  getDeviceByPath := fun ds p => ds.find? fun d => samePath d.path p

/-- A device descriptor with a path. -/
def nanoS : JSVal :=
  .obj [("path", .str "usb-1")]

/-- A command of the given action for account 0. -/
def commandOf (action : String) : JSVal :=
  .obj [("action", .str action),
    ("data", .obj [("index", .num 0), ("message", .str "hello"), ("tx", .obj [])])]

end Ledger

namespace Login

/-- The environment of a login on the main network. -/
def mainnetEnv : LoginEnv where
  t := fun x => x
  getNetwork := fun code => [("code", .num code)]
  customNodeCode := 2
  ledgerNano := .num 1
  toStr := fun _ => "Error"

end Login

/-! ## Theorems -/

namespace Ledger

@[simp] theorem pure_run {α : Type} (a : α) (s : St) : (pure a : M α) s = .ok a s := rfl

@[simp] theorem bind_run {α β : Type} (x : M α) (f : α → M β) (s : St) :
    (x >>= f) s = match x s with
      | .ok a s1 => f a s1
      | .throw e s1 => .throw e s1 := rfl

@[simp] theorem raise_run {α : Type} (e : JSVal) (s : St) : (raise e : M α) s = .throw e s := rfl

@[simp] theorem liftE_ok {α : Type} (a : α) (s : St) : liftE (.ok a) s = .ok a s := rfl

@[simp] theorem liftE_error {α : Type} (e : JSVal) (s : St) :
    (liftE (.error e) : M α) s = .throw e s := rfl

/-- Reading a property fails only with the `TypeError`. -/
theorem getProp_error {v e : JSVal} {key : String} (h : getProp v key = .error e) :
    e = typeError := by
  cases v <;> simp_all [getProp]

/-- What the final `.catch` handler rejects with. -/
theorem onRejected_run (e : JSVal) (s : St) :
    onRejected e s = .throw (if e.isString then e else .str LEDGER_ERR_DURING_CONNECTION) s := by
  unfold onRejected
  split <;> rfl

/-- A string value is a `str`. -/
theorem isString_iff {e : JSVal} : e.isString = true ↔ ∃ txt, e = .str txt := by
  cases e <;> simp [JSVal.isString]

theorem Quiet.pure {α : Type} (a : α) : Quiet (pure a : M α) := fun _ => rfl

theorem Quiet.raise {α : Type} (e : JSVal) : Quiet (raise e : M α) := fun _ => rfl

theorem Quiet.liftE {α : Type} (r : Except JSVal α) : Quiet (liftE r) := by
  cases r <;> exact fun _ => rfl

theorem Quiet.bind {α β : Type} {x : M α} {f : α → M β} (hx : Quiet x) (hf : ∀ a, Quiet (f a)) :
    Quiet (x >>= f) := by
  intro s
  have h1 := hx s
  simp only [bind_run]
  cases hxs : x s with
  | ok a s1 =>
    rw [hxs] at h1
    simpa [Res.state, ← h1] using hf a s1
  | throw e s1 =>
    rw [hxs] at h1
    simpa [Res.state] using h1

theorem Quiet.ite {α : Type} {c : Prop} [Decidable c] {x y : M α} (hx : Quiet x) (hy : Quiet y) :
    Quiet (if c then x else y) := by
  split <;> assumption

theorem Quiet.emit {e : Effect} (h : e.isClose = false) : Quiet (emit e) := by
  intro s
  simp [Ledger.emit, Res.state, closeCalls, List.filter_append, h]

theorem quiet_getPubKey (sess : Session) (a : LedgerAccount) (v : JSVal) :
    Quiet (getPubKey sess a v) :=
  Quiet.bind (Quiet.emit rfl) fun _ => Quiet.liftE _

theorem quiet_signMSG (sess : Session) (a : LedgerAccount) (v : JSVal) :
    Quiet (signMSG sess a v) :=
  Quiet.bind (Quiet.emit rfl) fun _ => Quiet.liftE _

theorem quiet_signTX (sess : Session) (a : LedgerAccount) (v : Buffer) (b : Bool) :
    Quiet (signTX sess a v b) :=
  Quiet.bind (Quiet.emit rfl) fun _ => Quiet.liftE _

theorem quiet_getLedgerAccount (w : World) (index : JSVal) : Quiet (getLedgerAccount w index) := by
  unfold getLedgerAccount
  split
  · exact Quiet.pure _
  · exact Quiet.raise _

theorem quiet_newDposLedger (sess : Session) : Quiet (newDposLedger sess) := by
  unfold newDposLedger
  split
  · exact Quiet.pure _
  · exact Quiet.raise _

theorem quiet_ifGetPublicKey (sess : Session) (command : JSVal) (a : LedgerAccount)
    (res : JSVal) : Quiet (ifGetPublicKey sess command a res) := by
  unfold ifGetPublicKey
  repeat (first
    | exact Quiet.liftE _
    | exact Quiet.pure _
    | exact quiet_getPubKey _ _ _
    | apply Quiet.ite
    | refine Quiet.bind ?_ (fun _ => ?_))

theorem quiet_ifGetAddress (sess : Session) (command : JSVal) (a : LedgerAccount)
    (res : JSVal) : Quiet (ifGetAddress sess command a res) := by
  unfold ifGetAddress
  repeat (first
    | exact Quiet.liftE _
    | exact Quiet.pure _
    | exact quiet_getPubKey _ _ _
    | apply Quiet.ite
    | refine Quiet.bind ?_ (fun _ => ?_))

theorem quiet_ifSignMsg (w : World) (sess : Session) (command : JSVal) (a : LedgerAccount)
    (res : JSVal) : Quiet (ifSignMsg w sess command a res) := by
  unfold ifSignMsg winSend
  repeat (first
    | exact Quiet.liftE _
    | exact Quiet.pure _
    | exact quiet_signMSG _ _ _
    | exact Quiet.emit rfl
    | apply Quiet.ite
    | refine Quiet.bind ?_ (fun _ => ?_))

theorem quiet_ifSignTx (w : World) (sess : Session) (command : JSVal) (a : LedgerAccount)
    (res : JSVal) : Quiet (ifSignTx w sess command a res) := by
  unfold ifSignTx winSend
  repeat (first
    | exact Quiet.liftE _
    | exact Quiet.pure _
    | exact quiet_signTX _ _ _ _
    | exact Quiet.emit rfl
    | apply Quiet.ite
    | refine Quiet.bind ?_ (fun _ => ?_))

/-- Building and awaiting the vendor request never closes the transport. -/
theorem quiet_commandRequest (w : World) (sess : Session) (command : JSVal) :
    Quiet (commandRequest w sess command) := by
  unfold commandRequest
  repeat (first
    | exact Quiet.liftE _
    | exact Quiet.pure _
    | exact quiet_newDposLedger _
    | exact quiet_getLedgerAccount _ _
    | exact quiet_ifGetPublicKey _ _ _ _
    | exact quiet_ifGetAddress _ _ _ _
    | exact quiet_ifSignMsg _ _ _ _ _
    | exact quiet_ifSignTx _ _ _ _ _
    | refine Quiet.bind ?_ (fun _ => ?_))

/-- One more `close` in the log is one more close call. -/
theorem closeCalls_append_close (log : List Effect) (t : Nat) :
    closeCalls (log ++ [Effect.close t]) = closeCalls log + 1 := by
  simp [closeCalls, List.filter_append, Effect.isClose]

/-- Opening a transport is not a close call. -/
theorem closeCalls_append_open (log : List Effect) (path : JSVal) :
    closeCalls (log ++ [Effect.hidOpen path]) = closeCalls log := by
  simp [closeCalls, List.filter_append, Effect.isClose]

/-- The `try` block when the request fails: the failure is that of the request. -/
theorem commandTry_of_request_throw {w : World} {t : Nat} {sess : Session}
    {command err : JSVal} {s s2 : St} (hr : commandRequest w sess command s = .throw err s2) :
    commandTry w t sess command s = .throw err s2 := by
  simp only [commandTry, bind_run, hr]

/-- The `try` block when the request succeeds and `close` returns. -/
theorem commandTry_of_request_ok {w : World} {t : Nat} {sess : Session}
    {command res : JSVal} {s s2 : St} (hr : commandRequest w sess command s = .ok res s2)
    (hclose : ∀ k, sess.close k = none) :
    commandTry w t sess command s =
      .ok res ⟨false, s2.opens, s2.devices, s2.log ++ [Effect.close t]⟩ := by
  simp only [commandTry, bind_run, hr, transportClose, hclose, setBusy, pure_run]

/-- The `catch` block when `close` returns: the rejection is read off `statusText`. -/
theorem commandCatch_of_close_ok (t : Nat) {sess : Session} (err : JSVal) (s : St)
    (hclose : ∀ k, sess.close k = none) :
    commandCatch t sess err s =
      .throw (match getProp err "statusText" with
          | .error e => e
          | .ok v =>
            if v.truthy && v.strictEqStr "CONDITIONS_OF_USE_NOT_SATISFIED"
            then .str LEDGER_ACTION_DENIED_BY_USER else .str LEDGER_ERR_DURING_CONNECTION)
        ⟨false, s.opens, s.devices, s.log ++ [Effect.close t]⟩ := by
  simp only [commandCatch, bind_run, transportClose, hclose, setBusy]
  cases getProp err "statusText" with
  | error e => rfl
  | ok v =>
    simp only [liftE_ok]
    split <;> rfl

/-- The `catch` block when its `close` throws: the rejection is what `close` threw. -/
theorem commandCatch_close_throws {t : Nat} {sess : Session} {e2 : JSVal} (err : JSVal) {s : St}
    (hc : sess.close (closeIndex t s) = some e2) :
    commandCatch t sess err s =
      .throw e2 ⟨s.busy, s.opens, s.devices, s.log ++ [Effect.close t]⟩ := by
  simp only [closeIndex] at hc
  simp only [commandCatch, bind_run, transportClose, hc]

/-- The `catch` block when its `close` returns: the rejection is read off `statusText`. -/
theorem commandCatch_close_returns {t : Nat} {sess : Session} (err : JSVal) {s : St}
    (hc : sess.close (closeIndex t s) = none) :
    commandCatch t sess err s =
      .throw (match getProp err "statusText" with
          | .error e => e
          | .ok v =>
            if v.truthy && v.strictEqStr "CONDITIONS_OF_USE_NOT_SATISFIED"
            then .str LEDGER_ACTION_DENIED_BY_USER else .str LEDGER_ERR_DURING_CONNECTION)
        ⟨false, s.opens, s.devices, s.log ++ [Effect.close t]⟩ := by
  simp only [closeIndex] at hc
  simp only [commandCatch, bind_run, transportClose, hc, setBusy]
  cases getProp err "statusText" with
  | error e => rfl
  | ok v =>
    simp only [liftE_ok]
    split <;> rfl

/-- What the final handler makes of the rejection of the `catch` block: the
`TypeError` of reading `statusText` becomes the connection code. -/
theorem onRejected_of_status (err : JSVal) :
    (if (match getProp err "statusText" with
          | .error e => e
          | .ok v =>
            if v.truthy && v.strictEqStr "CONDITIONS_OF_USE_NOT_SATISFIED"
            then JSVal.str LEDGER_ACTION_DENIED_BY_USER
            else JSVal.str LEDGER_ERR_DURING_CONNECTION).isString = true
      then (match getProp err "statusText" with
          | .error e => e
          | .ok v =>
            if v.truthy && v.strictEqStr "CONDITIONS_OF_USE_NOT_SATISFIED"
            then JSVal.str LEDGER_ACTION_DENIED_BY_USER
            else JSVal.str LEDGER_ERR_DURING_CONNECTION)
      else JSVal.str LEDGER_ERR_DURING_CONNECTION) =
      (match getProp err "statusText" with
        | .ok (.str txt) =>
          if txt = "CONDITIONS_OF_USE_NOT_SATISFIED"
          then JSVal.str LEDGER_ACTION_DENIED_BY_USER else JSVal.str LEDGER_ERR_DURING_CONNECTION
        | _ => JSVal.str LEDGER_ERR_DURING_CONNECTION) := by
  cases hg : getProp err "statusText" with
  | error e =>
    rw [getProp_error hg]
    rfl
  | ok v =>
    cases v with
    | str txt =>
      by_cases ht : txt = "CONDITIONS_OF_USE_NOT_SATISFIED"
      · subst ht
        rfl
      · simp [JSVal.strictEqStr, ht, JSVal.isString, LEDGER_ERR_DURING_CONNECTION]
    | _ => simp [JSVal.strictEqStr, JSVal.isString, LEDGER_ERR_DURING_CONNECTION]

/-- How the `try` block changes the number of close calls when `close` returns:
one more when it completes, none when it fails. -/
theorem commandTry_closeCalls (w : World) (t : Nat) (sess : Session) (command : JSVal) (s : St)
    (hclose : ∀ k, sess.close k = none) :
    match commandTry w t sess command s with
    | .ok _ s1 => closeCalls s1.log = closeCalls s.log + 1
    | .throw _ s1 => closeCalls s1.log = closeCalls s.log := by
  have hq := quiet_commandRequest w sess command s
  cases hr : commandRequest w sess command s with
  | ok res s2 =>
    rw [hr] at hq
    simp only [commandTry_of_request_ok hr hclose, closeCalls_append_close]
    simpa [Res.state] using hq
  | throw err s2 =>
    rw [hr] at hq
    simp only [commandTry_of_request_throw hr]
    simpa [Res.state] using hq

/-- The chain when `open` rejects: only the final handler runs. -/
theorem commandChain_open_error {w : World} {path e0 : JSVal} {s : St} (command : JSVal)
    (ho : w.hidOpen s.opens path = .error e0) :
    commandChain w path command s =
      .throw (if e0.isString then e0 else .str LEDGER_ERR_DURING_CONNECTION)
        { s with opens := s.opens + 1, log := s.log ++ [Effect.hidOpen path] } := by
  simp only [commandChain, tryCatchM, bind_run, hidOpen, ho, onRejected_run]

/-- The chain when `open` resolves and the `try` block completes. -/
theorem commandChain_try_ok {w : World} {path command v : JSVal} {sess : Session} {s s1 : St}
    (ho : w.hidOpen s.opens path = .ok sess)
    (hb : commandTry w s.opens sess command (tryStart s path) = .ok v s1) :
    commandChain w path command s = .ok v s1 := by
  simp only [tryStart] at hb
  simp only [commandChain, tryCatchM, bind_run, hidOpen, ho, onOpened, setBusy, hb]

/-- The chain when `open` resolves and the `try` block fails: the `catch` block
rejects, and the final handler maps the rejection. -/
theorem commandChain_try_throw {w : World} {path command err e : JSVal} {sess : Session}
    {s s2 s3 : St} (ho : w.hidOpen s.opens path = .ok sess)
    (hb : commandTry w s.opens sess command (tryStart s path) = .throw err s2)
    (hc : commandCatch s.opens sess err s2 = .throw e s3) :
    commandChain w path command s =
      .throw (if e.isString then e else .str LEDGER_ERR_DURING_CONNECTION) s3 := by
  simp only [tryStart] at hb
  simp only [commandChain, tryCatchM, bind_run, hidOpen, ho, onOpened, setBusy, hb, hc,
    onRejected_run]

/-- The call when `open` resolves, the `try` block fails and the `close` of the
`catch` block returns. -/
theorem executeLedgerCommand_of_try_throw {w : World} {device command path err : JSVal}
    {sess : Session} {s s2 : St} (hp : getProp device "path" = .ok path)
    (ho : w.hidOpen s.opens path = .ok sess)
    (hb : commandTry w s.opens sess command (tryStart s path) = .throw err s2)
    (hc : sess.close (closeIndex s.opens s2) = none) :
    executeLedgerCommand w device command s =
      (.rejected (match getProp err "statusText" with
          | .ok (.str txt) =>
            if txt = "CONDITIONS_OF_USE_NOT_SATISFIED"
            then .str LEDGER_ACTION_DENIED_BY_USER else .str LEDGER_ERR_DURING_CONNECTION
          | _ => .str LEDGER_ERR_DURING_CONNECTION),
        ⟨false, s2.opens, s2.devices, s2.log ++ [Effect.close s.opens]⟩) := by
  simp only [executeLedgerCommand, hp,
    commandChain_try_throw ho hb (commandCatch_close_returns err hc), onRejected_of_status]

/-- The call when `open` resolves, the `try` block fails and the `close` of the
`catch` block throws. -/
theorem executeLedgerCommand_of_catch_close_throw {w : World} {device command path err e2 : JSVal}
    {sess : Session} {s s2 : St} (hp : getProp device "path" = .ok path)
    (ho : w.hidOpen s.opens path = .ok sess)
    (hb : commandTry w s.opens sess command (tryStart s path) = .throw err s2)
    (hc : sess.close (closeIndex s.opens s2) = some e2) :
    executeLedgerCommand w device command s =
      (.rejected (if e2.isString then e2 else .str LEDGER_ERR_DURING_CONNECTION),
        ⟨s2.busy, s2.opens, s2.devices, s2.log ++ [Effect.close s.opens]⟩) := by
  simp only [executeLedgerCommand, hp,
    commandChain_try_throw ho hb (commandCatch_close_throws err hc)]

/-- C1 (amended): if the promise returned by `executeLedgerCommand` rejects,
the rejection value is one of the two codes, or else it is a string that
`TransportNodeHid.open` rejected with or that `transport.close` threw in the
`catch` block, passed through unchanged by the final `.catch`; every rejection
value that is not a string is mapped to `LEDGER_ERR_DURING_CONNECTION`.  In
full: when `open` rejects with `e`, the promise rejects with `e` if `e` is a
string and with the connection code otherwise; when the `try` block fails and
the `close` of the `catch` block throws `e`, likewise; and when that `close`
returns, the promise rejects with `LEDGER_ACTION_DENIED_BY_USER` if the error
has the refusal status and with the connection code otherwise, also when
reading `statusText` throws. -/
theorem executeLedgerCommand_rejection_value (w : World) (device command : JSVal) (s : St) :
    (∀ e s1, executeLedgerCommand w device command s = (.rejected e, s1) →
        e = .str LEDGER_ACTION_DENIED_BY_USER ∨ e = .str LEDGER_ERR_DURING_CONNECTION ∨
          ∃ txt path, e = .str txt ∧ getProp device "path" = .ok path ∧
            (w.hidOpen s.opens path = .error (.str txt) ∨
              ∃ sess err s2, w.hidOpen s.opens path = .ok sess ∧
                commandTry w s.opens sess command (tryStart s path) = .throw err s2 ∧
                sess.close (closeIndex s.opens s2) = some (.str txt))) ∧
      (∀ path e0, getProp device "path" = .ok path → w.hidOpen s.opens path = .error e0 →
        (executeLedgerCommand w device command s).1 =
          .rejected (if e0.isString then e0 else .str LEDGER_ERR_DURING_CONNECTION)) ∧
      (∀ path sess err s2 e2, getProp device "path" = .ok path →
        w.hidOpen s.opens path = .ok sess →
        commandTry w s.opens sess command (tryStart s path) = .throw err s2 →
        sess.close (closeIndex s.opens s2) = some e2 →
        (executeLedgerCommand w device command s).1 =
          .rejected (if e2.isString then e2 else .str LEDGER_ERR_DURING_CONNECTION)) ∧
      (∀ path sess err s2, getProp device "path" = .ok path →
        w.hidOpen s.opens path = .ok sess →
        commandTry w s.opens sess command (tryStart s path) = .throw err s2 →
        sess.close (closeIndex s.opens s2) = none →
        (executeLedgerCommand w device command s).1 =
          .rejected (match getProp err "statusText" with
            | .ok (.str txt) =>
              if txt = "CONDITIONS_OF_USE_NOT_SATISFIED"
              then .str LEDGER_ACTION_DENIED_BY_USER else .str LEDGER_ERR_DURING_CONNECTION
            | _ => .str LEDGER_ERR_DURING_CONNECTION)) := by
  refine ⟨?_, ?_, ?_, ?_⟩
  · intro e s1 h
    unfold executeLedgerCommand at h
    cases hp : getProp device "path" with
    | error e0 => simp [hp] at h
    | ok path =>
      simp only [hp] at h
      cases ho : w.hidOpen s.opens path with
      | error e0 =>
        simp only [commandChain_open_error command ho, Prod.mk.injEq, Outcome.rejected.injEq] at h
        by_cases hs : e0.isString = true
        · obtain ⟨txt, rfl⟩ := isString_iff.mp hs
          simp only [JSVal.isString, if_true] at h
          exact Or.inr (Or.inr ⟨txt, path, h.1.symm, rfl, Or.inl ho⟩)
        · simp only [hs] at h
          exact Or.inr (Or.inl h.1.symm)
      | ok sess =>
        cases hb : commandTry w s.opens sess command (tryStart s path) with
        | ok v s2 => simp [commandChain_try_ok ho hb] at h
        | throw err s2 =>
          cases hc : sess.close (closeIndex s.opens s2) with
          | some e2 =>
            simp only [commandChain_try_throw ho hb (commandCatch_close_throws err hc),
              Prod.mk.injEq, Outcome.rejected.injEq] at h
            by_cases hs : e2.isString = true
            · obtain ⟨txt, rfl⟩ := isString_iff.mp hs
              simp only [JSVal.isString, if_true] at h
              exact Or.inr (Or.inr ⟨txt, path, h.1.symm, rfl, Or.inr ⟨sess, err, s2, ho, hb, hc⟩⟩)
            · simp only [hs] at h
              exact Or.inr (Or.inl h.1.symm)
          | none =>
            simp only [commandChain_try_throw ho hb (commandCatch_close_returns err hc),
              onRejected_of_status, Prod.mk.injEq, Outcome.rejected.injEq] at h
            rw [← h.1]
            cases getProp err "statusText" with
            | error e0 => exact Or.inr (Or.inl rfl)
            | ok v =>
              cases v with
              | str txt =>
                by_cases ht : txt = "CONDITIONS_OF_USE_NOT_SATISFIED"
                · simp [ht]
                · simp [ht]
              | _ => exact Or.inr (Or.inl rfl)
  · intro path e0 hp ho
    simp only [executeLedgerCommand, hp, commandChain_open_error command ho]
  · intro path sess err s2 e2 hp ho hb hc
    rw [executeLedgerCommand_of_catch_close_throw hp ho hb hc]
  · intro path sess err s2 hp ho hb hc
    rw [executeLedgerCommand_of_try_throw hp ho hb hc]

/-- C1, witness: `open` rejecting with an `Error` object gives the connection
code; so does a `close` that throws an `Error` object in the `catch` block after
a refusal; a refusal with a `close` that returns gives the refusal code. -/
theorem executeLedgerCommand_rejection_value_witness :
    (executeLedgerCommand (worldOf (.error plainError)) nanoS (commandOf "GET_PUBLICKEY")
        St.init).1 = .rejected (.str LEDGER_ERR_DURING_CONNECTION) ∧
      (executeLedgerCommand (worldOf (.ok (sessionOf (.error refusal) fun _ => some plainError)))
        nanoS (commandOf "GET_PUBLICKEY") St.init).1 =
        .rejected (.str LEDGER_ERR_DURING_CONNECTION) ∧
      (executeLedgerCommand (worldOf (.ok (sessionOf (.error refusal) fun _ => none)))
        nanoS (commandOf "GET_PUBLICKEY") St.init).1 =
        .rejected (.str LEDGER_ACTION_DENIED_BY_USER) ∧
      (JSVal.str LEDGER_ERR_DURING_CONNECTION = .str LEDGER_ACTION_DENIED_BY_USER ∨
        JSVal.str LEDGER_ERR_DURING_CONNECTION = .str LEDGER_ERR_DURING_CONNECTION ∨
        ∃ txt path, JSVal.str LEDGER_ERR_DURING_CONNECTION = .str txt ∧
          getProp nanoS "path" = .ok path ∧
          ((worldOf (.error plainError)).hidOpen St.init.opens path = .error (.str txt) ∨
            ∃ sess err s2, (worldOf (.error plainError)).hidOpen St.init.opens path = .ok sess ∧
              commandTry (worldOf (.error plainError)) St.init.opens sess
                (commandOf "GET_PUBLICKEY") (tryStart St.init path) = .throw err s2 ∧
              sess.close (closeIndex St.init.opens s2) = some (.str txt))) :=
  ⟨(executeLedgerCommand_rejection_value (worldOf (.error plainError)) nanoS
      (commandOf "GET_PUBLICKEY") St.init).2.1 (.str "usb-1") plainError rfl rfl,
    (executeLedgerCommand_rejection_value
      (worldOf (.ok (sessionOf (.error refusal) fun _ => some plainError))) nanoS
      (commandOf "GET_PUBLICKEY") St.init).2.2.1 (.str "usb-1")
      (sessionOf (.error refusal) fun _ => some plainError) refusal
      ⟨true, 1, [], [Effect.hidOpen (.str "usb-1"),
        Effect.getPubKey ⟨SupportedCoin.LISK, .num 0⟩ .undefined]⟩ plainError rfl rfl rfl rfl,
    (executeLedgerCommand_rejection_value
      (worldOf (.ok (sessionOf (.error refusal) fun _ => none))) nanoS
      (commandOf "GET_PUBLICKEY") St.init).2.2.2 (.str "usb-1")
      (sessionOf (.error refusal) fun _ => none) refusal
      ⟨true, 1, [], [Effect.hidOpen (.str "usb-1"),
        Effect.getPubKey ⟨SupportedCoin.LISK, .num 0⟩ .undefined]⟩ rfl rfl rfl rfl,
    (executeLedgerCommand_rejection_value (worldOf (.error plainError)) nanoS
      (commandOf "GET_PUBLICKEY") St.init).1 (.str LEDGER_ERR_DURING_CONNECTION)
      ⟨false, 1, [], [Effect.hidOpen (.str "usb-1")]⟩ rfl⟩

/-- C1, counterexample: when `TransportNodeHid.open` rejects with a string, the
promise rejects with that string, which is neither of the two codes. -/
theorem executeLedgerCommand_rejection_not_always_code :
    ¬ ∀ (w : World) (device command : JSVal) (s s1 : St) (e : JSVal),
      executeLedgerCommand w device command s = (.rejected e, s1) →
        e = .str LEDGER_ACTION_DENIED_BY_USER ∨ e = .str LEDGER_ERR_DURING_CONNECTION := by
  intro h
  have h1 := h (worldOf (.error (.str "cannot open device"))) nanoS (commandOf "GET_PUBLICKEY")
    St.init ⟨false, 1, [], [Effect.hidOpen (.str "usb-1")]⟩ (.str "cannot open device") rfl
  simp [LEDGER_ACTION_DENIED_BY_USER, LEDGER_ERR_DURING_CONNECTION] at h1


/-- The call when `open` resolves, the request fails and `close` returns. -/
theorem executeLedgerCommand_of_request_throw {w : World} {device command path err : JSVal}
    {sess : Session} {s s2 : St} (hp : getProp device "path" = .ok path)
    (ho : w.hidOpen s.opens path = .ok sess)
    (hr : commandRequest w sess command (tryStart s path) = .throw err s2)
    (hclose : ∀ k, sess.close k = none) :
    executeLedgerCommand w device command s =
      (.rejected (match getProp err "statusText" with
          | .ok (.str txt) =>
            if txt = "CONDITIONS_OF_USE_NOT_SATISFIED"
            then .str LEDGER_ACTION_DENIED_BY_USER else .str LEDGER_ERR_DURING_CONNECTION
          | _ => .str LEDGER_ERR_DURING_CONNECTION),
        ⟨false, s2.opens, s2.devices, s2.log ++ [Effect.close s.opens]⟩) := by
  have hc := commandCatch_of_close_ok s.opens err s2 hclose
  simp only [executeLedgerCommand, hp,
    commandChain_try_throw ho (commandTry_of_request_throw hr) hc]
  cases hg : getProp err "statusText" with
  | error e =>
    rw [getProp_error hg]
    rfl
  | ok v =>
    cases v with
    | str txt =>
      by_cases ht : txt = "CONDITIONS_OF_USE_NOT_SATISFIED"
      · subst ht
        rfl
      · simp [JSVal.strictEqStr, ht, JSVal.isString, LEDGER_ERR_DURING_CONNECTION]
    | _ => simp [JSVal.strictEqStr, JSVal.isString, LEDGER_ERR_DURING_CONNECTION]

/-- C2 (amended): once the transport has opened, and provided `transport.close`
does not throw, a failure raised while building or awaiting the vendor request
rejects with `LEDGER_ACTION_DENIED_BY_USER` if and only if the error carries
`statusText` equal to `CONDITIONS_OF_USE_NOT_SATISFIED`; every other failure
rejects with `LEDGER_ERR_DURING_CONNECTION`. -/
theorem executeLedgerCommand_failure_code (w : World) (device command path err : JSVal)
    (sess : Session) (s s2 : St) (hp : getProp device "path" = .ok path)
    (ho : w.hidOpen s.opens path = .ok sess)
    (hr : commandRequest w sess command (tryStart s path) = .throw err s2)
    (hclose : ∀ k, sess.close k = none) :
    ((executeLedgerCommand w device command s).1 = .rejected (.str LEDGER_ACTION_DENIED_BY_USER) ↔
        getProp err "statusText" = .ok (.str "CONDITIONS_OF_USE_NOT_SATISFIED")) ∧
      (getProp err "statusText" ≠ .ok (.str "CONDITIONS_OF_USE_NOT_SATISFIED") →
        (executeLedgerCommand w device command s).1 =
          .rejected (.str LEDGER_ERR_DURING_CONNECTION)) := by
  rw [executeLedgerCommand_of_request_throw hp ho hr hclose]
  cases hg : getProp err "statusText" with
  | error e => simp [LEDGER_ACTION_DENIED_BY_USER, LEDGER_ERR_DURING_CONNECTION]
  | ok v =>
    cases v with
    | str txt =>
      by_cases ht : txt = "CONDITIONS_OF_USE_NOT_SATISFIED"
      · simp [ht]
      · simp [ht, LEDGER_ACTION_DENIED_BY_USER, LEDGER_ERR_DURING_CONNECTION]
    | _ => simp [LEDGER_ACTION_DENIED_BY_USER, LEDGER_ERR_DURING_CONNECTION]

/-- C2, witness: a refusal on the device, with a transport that closes. -/
theorem executeLedgerCommand_failure_code_witness :
    ((executeLedgerCommand (worldOf (.ok (sessionOf (.error refusal) fun _ => none))) nanoS
          (commandOf "GET_PUBLICKEY") St.init).1 =
        .rejected (.str LEDGER_ACTION_DENIED_BY_USER) ↔
        getProp refusal "statusText" = .ok (.str "CONDITIONS_OF_USE_NOT_SATISFIED")) ∧
      (getProp refusal "statusText" ≠ .ok (.str "CONDITIONS_OF_USE_NOT_SATISFIED") →
        (executeLedgerCommand (worldOf (.ok (sessionOf (.error refusal) fun _ => none))) nanoS
          (commandOf "GET_PUBLICKEY") St.init).1 =
          .rejected (.str LEDGER_ERR_DURING_CONNECTION)) :=
  executeLedgerCommand_failure_code (worldOf (.ok (sessionOf (.error refusal) fun _ => none)))
    nanoS (commandOf "GET_PUBLICKEY") (.str "usb-1") refusal
    (sessionOf (.error refusal) fun _ => none) St.init
    ⟨true, 1, [], [Effect.hidOpen (.str "usb-1"),
      Effect.getPubKey ⟨SupportedCoin.LISK, .num 0⟩ .undefined]⟩
    rfl rfl rfl (fun _ => rfl)

/-- C2, counterexample: the user refuses on the device and `transport.close`
throws in the `catch` block; the error carries the refusal status, yet the
promise rejects with `LEDGER_ERR_DURING_CONNECTION`. -/
theorem executeLedgerCommand_failure_code_needs_close :
    ¬ ∀ (w : World) (device command path err : JSVal) (sess : Session) (s s2 : St),
      getProp device "path" = .ok path → w.hidOpen s.opens path = .ok sess →
      commandRequest w sess command (tryStart s path) = .throw err s2 →
      ((executeLedgerCommand w device command s).1 =
            .rejected (.str LEDGER_ACTION_DENIED_BY_USER) ↔
          getProp err "statusText" = .ok (.str "CONDITIONS_OF_USE_NOT_SATISFIED")) ∧
        (getProp err "statusText" ≠ .ok (.str "CONDITIONS_OF_USE_NOT_SATISFIED") →
          (executeLedgerCommand w device command s).1 =
            .rejected (.str LEDGER_ERR_DURING_CONNECTION)) := by
  intro h
  have h1 := (h (worldOf (.ok (sessionOf (.error refusal) fun _ => some plainError))) nanoS
    (commandOf "GET_PUBLICKEY") (.str "usb-1") refusal
    (sessionOf (.error refusal) fun _ => some plainError) St.init
    ⟨true, 1, [], [Effect.hidOpen (.str "usb-1"),
      Effect.getPubKey ⟨SupportedCoin.LISK, .num 0⟩ .undefined]⟩ rfl rfl rfl).1.mpr rfl
  have h2 : (executeLedgerCommand
      (worldOf (.ok (sessionOf (.error refusal) fun _ => some plainError))) nanoS
      (commandOf "GET_PUBLICKEY") St.init).1 = .rejected (.str LEDGER_ERR_DURING_CONNECTION) := rfl
  rw [h2] at h1
  simp [LEDGER_ACTION_DENIED_BY_USER, LEDGER_ERR_DURING_CONNECTION] at h1

/-- C3: when `TransportNodeHid.open` resolves and `transport.close` does not
throw, `executeLedgerCommand` calls `transport.close` exactly once, whether the
request succeeds or fails; when `open` rejects, or `device.path` cannot be read,
`close` is not called. -/
theorem executeLedgerCommand_close_once (w : World) (device command : JSVal) (s : St) :
    (∀ path sess, getProp device "path" = .ok path → w.hidOpen s.opens path = .ok sess →
        (∀ k, sess.close k = none) →
        closeCalls (executeLedgerCommand w device command s).2.log = closeCalls s.log + 1) ∧
      (∀ path e, getProp device "path" = .ok path → w.hidOpen s.opens path = .error e →
        closeCalls (executeLedgerCommand w device command s).2.log = closeCalls s.log) ∧
      (∀ e, getProp device "path" = .error e →
        closeCalls (executeLedgerCommand w device command s).2.log = closeCalls s.log) := by
  refine ⟨?_, ?_, ?_⟩
  · intro path sess hp ho hclose
    have hstart : closeCalls (tryStart s path).log = closeCalls s.log :=
      closeCalls_append_open s.log path
    have ht := commandTry_closeCalls w s.opens sess command (tryStart s path) hclose
    cases hb : commandTry w s.opens sess command (tryStart s path) with
    | ok v s1 =>
      rw [hb] at ht
      simp only [executeLedgerCommand, hp, commandChain_try_ok ho hb]
      rw [ht, hstart]
    | throw err s2 =>
      rw [hb] at ht
      have hc := commandCatch_of_close_ok s.opens err s2 hclose
      simp only [executeLedgerCommand, hp, commandChain_try_throw ho hb hc,
        closeCalls_append_close]
      rw [ht, hstart]
  · intro path e hp ho
    simp only [executeLedgerCommand, hp, commandChain_open_error command ho,
      closeCalls_append_open]
  · intro e hp
    simp only [executeLedgerCommand, hp]

/-- C3, witness: one close on success, one on a refusal, none when `open` rejects. -/
theorem executeLedgerCommand_close_once_witness :
    closeCalls (executeLedgerCommand (worldOf (.ok (sessionOf (.ok ()) fun _ => none))) nanoS
        (commandOf "SIGN_MSG") St.init).2.log = closeCalls St.init.log + 1 ∧
      closeCalls (executeLedgerCommand (worldOf (.ok (sessionOf (.error refusal) fun _ => none)))
        nanoS (commandOf "SIGN_MSG") St.init).2.log = closeCalls St.init.log + 1 ∧
      closeCalls (executeLedgerCommand (worldOf (.error plainError)) nanoS
        (commandOf "SIGN_MSG") St.init).2.log = closeCalls St.init.log :=
  ⟨(executeLedgerCommand_close_once (worldOf (.ok (sessionOf (.ok ()) fun _ => none))) nanoS
      (commandOf "SIGN_MSG") St.init).1 (.str "usb-1") _ rfl rfl (fun _ => rfl),
    (executeLedgerCommand_close_once (worldOf (.ok (sessionOf (.error refusal) fun _ => none)))
      nanoS (commandOf "SIGN_MSG") St.init).1 (.str "usb-1") _ rfl rfl (fun _ => rfl),
    (executeLedgerCommand_close_once (worldOf (.error plainError)) nanoS
      (commandOf "SIGN_MSG") St.init).2.1 (.str "usb-1") plainError rfl rfl⟩

/-- C5 (amended): when the transport opens, the request is built, the vendor
call succeeds and `transport.close` does not throw, `executeLedgerCommand`
resolves with the `publicKey` of `getPubKey` for `GET_PUBLICKEY`, with its
`address` for `GET_ADDRESS`, with the hex of the first 64 bytes of the `signMSG`
signature for `SIGN_MSG`, and with the hex of the whole `signTX` signature over
`getTransactionBytes(command.data.tx)` for `SIGN_TX`; the ledger account is the
one of `command.data.index`, and the log shows a single vendor call. -/
theorem executeLedgerCommand_resolves (w : World) (device command path data index : JSVal)
    (sess : Session) (s : St) (hp : getProp device "path" = .ok path)
    (ho : w.hidOpen s.opens path = .ok sess) (hctor : sess.newDposLedger = none)
    (hdata : getProp command "data" = .ok data) (hindex : getProp data "index" = .ok index)
    (hacct : w.accountThrows (defaultIndex index) = none)
    (hclose : ∀ k, sess.close k = none) :
    (∀ showOnDevice r, getProp command "action" = .ok (.str "GET_PUBLICKEY") →
        getProp data "showOnDevice" = .ok showOnDevice →
        sess.getPubKey ⟨SupportedCoin.LISK, defaultIndex index⟩ showOnDevice = .ok r →
        executeLedgerCommand w device command s =
          (.resolved (.str r.publicKey), ⟨false, s.opens + 1, s.devices,
            s.log ++ [Effect.hidOpen path,
              Effect.getPubKey ⟨SupportedCoin.LISK, defaultIndex index⟩ showOnDevice,
              Effect.close s.opens]⟩)) ∧
      (∀ showOnDevice r, getProp command "action" = .ok (.str "GET_ADDRESS") →
        getProp data "showOnDevice" = .ok showOnDevice →
        sess.getPubKey ⟨SupportedCoin.LISK, defaultIndex index⟩ showOnDevice = .ok r →
        executeLedgerCommand w device command s =
          (.resolved (.str r.address), ⟨false, s.opens + 1, s.devices,
            s.log ++ [Effect.hidOpen path,
              Effect.getPubKey ⟨SupportedCoin.LISK, defaultIndex index⟩ showOnDevice,
              Effect.close s.opens]⟩)) ∧
      (∀ message signature, getProp command "action" = .ok (.str "SIGN_MSG") →
        getProp data "message" = .ok message →
        sess.signMSG ⟨SupportedCoin.LISK, defaultIndex index⟩ message = .ok signature →
        executeLedgerCommand w device command s =
          (.resolved (.str (w.getBufferToHex (signature.take 64))), ⟨false, s.opens + 1, s.devices,
            s.log ++ [Effect.hidOpen path, Effect.send "ledgerButtonCallback",
              Effect.signMSG ⟨SupportedCoin.LISK, defaultIndex index⟩ message,
              Effect.close s.opens]⟩)) ∧
      (∀ tx bytes signature, getProp command "action" = .ok (.str "SIGN_TX") →
        getProp data "tx" = .ok tx → w.getTransactionBytes tx = .ok bytes →
        sess.signTX ⟨SupportedCoin.LISK, defaultIndex index⟩ bytes false = .ok signature →
        executeLedgerCommand w device command s =
          (.resolved (.str (w.getBufferToHex signature)), ⟨false, s.opens + 1, s.devices,
            s.log ++ [Effect.hidOpen path, Effect.send "ledgerButtonCallback",
              Effect.signTX ⟨SupportedCoin.LISK, defaultIndex index⟩ bytes false,
              Effect.close s.opens]⟩)) := by
  refine ⟨?_, ?_, ?_, ?_⟩
  · intro showOnDevice r ha hs hv
    have hr : commandRequest w sess command (tryStart s path) = .ok (.str r.publicKey)
        ⟨true, s.opens + 1, s.devices, s.log ++ [Effect.hidOpen path,
          Effect.getPubKey ⟨SupportedCoin.LISK, defaultIndex index⟩ showOnDevice]⟩ := by
      simp [commandRequest, newDposLedger, hctor, hdata, hindex, getLedgerAccount, hacct,
        ifGetPublicKey, ifGetAddress, ifSignMsg, ifSignTx, ha, hs, hv, JSVal.strictEqStr,
        getPubKey, emit, tryStart]
    simp [executeLedgerCommand, hp, commandChain_try_ok ho (commandTry_of_request_ok hr hclose)]
  · intro showOnDevice r ha hs hv
    have hr : commandRequest w sess command (tryStart s path) = .ok (.str r.address)
        ⟨true, s.opens + 1, s.devices, s.log ++ [Effect.hidOpen path,
          Effect.getPubKey ⟨SupportedCoin.LISK, defaultIndex index⟩ showOnDevice]⟩ := by
      simp [commandRequest, newDposLedger, hctor, hdata, hindex, getLedgerAccount, hacct,
        ifGetPublicKey, ifGetAddress, ifSignMsg, ifSignTx, ha, hs, hv, JSVal.strictEqStr,
        getPubKey, emit, tryStart]
    simp [executeLedgerCommand, hp, commandChain_try_ok ho (commandTry_of_request_ok hr hclose)]
  · intro message signature ha hs hv
    have hr : commandRequest w sess command (tryStart s path) =
        .ok (.str (w.getBufferToHex (signature.take 64)))
        ⟨true, s.opens + 1, s.devices, s.log ++ [Effect.hidOpen path,
          Effect.send "ledgerButtonCallback",
          Effect.signMSG ⟨SupportedCoin.LISK, defaultIndex index⟩ message]⟩ := by
      simp [commandRequest, newDposLedger, hctor, hdata, hindex, getLedgerAccount, hacct,
        ifGetPublicKey, ifGetAddress, ifSignMsg, ifSignTx, ha, hs, hv, JSVal.strictEqStr,
        signMSG, winSend, emit, tryStart]
    simp [executeLedgerCommand, hp, commandChain_try_ok ho (commandTry_of_request_ok hr hclose)]
  · intro tx bytes signature ha hs hb hv
    have hr : commandRequest w sess command (tryStart s path) =
        .ok (.str (w.getBufferToHex signature))
        ⟨true, s.opens + 1, s.devices, s.log ++ [Effect.hidOpen path,
          Effect.send "ledgerButtonCallback",
          Effect.signTX ⟨SupportedCoin.LISK, defaultIndex index⟩ bytes false]⟩ := by
      simp [commandRequest, newDposLedger, hctor, hdata, hindex, getLedgerAccount, hacct,
        ifGetPublicKey, ifGetAddress, ifSignMsg, ifSignTx, ha, hs, hb, hv, JSVal.strictEqStr,
        signTX, winSend, emit, tryStart]
    simp [executeLedgerCommand, hp, commandChain_try_ok ho (commandTry_of_request_ok hr hclose)]

/-- C5, witness: the four actions on a transport that answers and closes. -/
theorem executeLedgerCommand_resolves_witness :
    (executeLedgerCommand (worldOf (.ok (sessionOf (.ok ()) fun _ => none))) nanoS
        (commandOf "GET_PUBLICKEY") St.init).1 = .resolved (.str "0a1b2c3d4e5f60718293") ∧
      (executeLedgerCommand (worldOf (.ok (sessionOf (.ok ()) fun _ => none))) nanoS
        (commandOf "GET_ADDRESS") St.init).1 = .resolved (.str "123456L") ∧
      (executeLedgerCommand (worldOf (.ok (sessionOf (.ok ()) fun _ => none))) nanoS
        (commandOf "SIGN_MSG") St.init).1 =
        .resolved (.str ((worldOf (.ok (sessionOf (.ok ()) fun _ => none))).getBufferToHex
          (List.range 64))) ∧
      (executeLedgerCommand (worldOf (.ok (sessionOf (.ok ()) fun _ => none))) nanoS
        (commandOf "SIGN_TX") St.init).1 = .resolved (.str "dead") :=
  ⟨congrArg Prod.fst ((executeLedgerCommand_resolves
      (worldOf (.ok (sessionOf (.ok ()) fun _ => none))) nanoS (commandOf "GET_PUBLICKEY")
      (.str "usb-1") (.obj [("index", .num 0), ("message", .str "hello"), ("tx", .obj [])])
      (.num 0) (sessionOf (.ok ()) fun _ => none) St.init rfl rfl rfl rfl rfl rfl
      (fun _ => rfl)).1 .undefined ⟨"0a1b2c3d4e5f60718293", "123456L"⟩ rfl rfl rfl),
    congrArg Prod.fst ((executeLedgerCommand_resolves
      (worldOf (.ok (sessionOf (.ok ()) fun _ => none))) nanoS (commandOf "GET_ADDRESS")
      (.str "usb-1") (.obj [("index", .num 0), ("message", .str "hello"), ("tx", .obj [])])
      (.num 0) (sessionOf (.ok ()) fun _ => none) St.init rfl rfl rfl rfl rfl rfl
      (fun _ => rfl)).2.1 .undefined ⟨"0a1b2c3d4e5f60718293", "123456L"⟩ rfl rfl rfl),
    congrArg Prod.fst ((executeLedgerCommand_resolves
      (worldOf (.ok (sessionOf (.ok ()) fun _ => none))) nanoS (commandOf "SIGN_MSG")
      (.str "usb-1") (.obj [("index", .num 0), ("message", .str "hello"), ("tx", .obj [])])
      (.num 0) (sessionOf (.ok ()) fun _ => none) St.init rfl rfl rfl rfl rfl rfl
      (fun _ => rfl)).2.2.1 (.str "hello") (List.range 70) rfl rfl rfl),
    congrArg Prod.fst ((executeLedgerCommand_resolves
      (worldOf (.ok (sessionOf (.ok ()) fun _ => none))) nanoS (commandOf "SIGN_TX")
      (.str "usb-1") (.obj [("index", .num 0), ("message", .str "hello"), ("tx", .obj [])])
      (.num 0) (sessionOf (.ok ()) fun _ => none) St.init rfl rfl rfl rfl rfl rfl
      (fun _ => rfl)).2.2.2 (.obj []) [1, 2, 3] [222, 173] rfl rfl rfl rfl)⟩

/-- C5, counterexample: the transport opens and `getPubKey` answers, but
`transport.close` throws; the promise rejects instead of resolving with the key. -/
theorem executeLedgerCommand_resolves_needs_close :
    ¬ ∀ (w : World) (device command path data index showOnDevice : JSVal) (sess : Session)
      (r : LiskAccount) (s : St),
      getProp device "path" = .ok path → w.hidOpen s.opens path = .ok sess →
      sess.newDposLedger = none → getProp command "data" = .ok data →
      getProp data "index" = .ok index → w.accountThrows (defaultIndex index) = none →
      getProp command "action" = .ok (.str "GET_PUBLICKEY") →
      getProp data "showOnDevice" = .ok showOnDevice →
      sess.getPubKey ⟨SupportedCoin.LISK, defaultIndex index⟩ showOnDevice = .ok r →
      (executeLedgerCommand w device command s).1 = .resolved (.str r.publicKey) := by
  intro h
  have h1 := h (worldOf (.ok (sessionOf (.ok ()) fun _ => some plainError))) nanoS
    (commandOf "GET_PUBLICKEY") (.str "usb-1")
    (.obj [("index", .num 0), ("message", .str "hello"), ("tx", .obj [])]) (.num 0) .undefined
    (sessionOf (.ok ()) fun _ => some plainError) ⟨"0a1b2c3d4e5f60718293", "123456L"⟩ St.init
    rfl rfl rfl rfl rfl rfl rfl rfl rfl
  have h2 : (executeLedgerCommand
      (worldOf (.ok (sessionOf (.ok ()) fun _ => some plainError))) nanoS
      (commandOf "GET_PUBLICKEY") St.init).1 = .rejected (.str LEDGER_ERR_DURING_CONNECTION) := rfl
  rw [h2] at h1
  cases h1

theorem steady_pure {α : Type} (a : α) : Steady (pure a : M α) := fun _ => rfl

theorem steady_raise {α : Type} (e : JSVal) : Steady (raise e : M α) := fun _ => rfl

theorem steady_liftE {α : Type} (r : Except JSVal α) : Steady (liftE r) := by
  cases r <;> exact fun _ => rfl

theorem steady_bind {α β : Type} {x : M α} {f : α → M β} (hx : Steady x)
    (hf : ∀ a, Steady (f a)) : Steady (x >>= f) := by
  intro s
  have h1 := hx s
  simp only [bind_run]
  cases hxs : x s with
  | ok a s1 =>
    rw [hxs] at h1
    simpa [Res.state, ← h1] using hf a s1
  | throw e s1 =>
    rw [hxs] at h1
    simpa [Res.state] using h1

theorem steady_ite {α : Type} {c : Prop} [Decidable c] {x y : M α} (hx : Steady x)
    (hy : Steady y) : Steady (if c then x else y) := by
  split <;> assumption

theorem steady_emit (e : Effect) : Steady (emit e) := fun _ => rfl

theorem steady_getPubKey (sess : Session) (a : LedgerAccount) (v : JSVal) :
    Steady (getPubKey sess a v) :=
  steady_bind (steady_emit _) fun _ => steady_liftE _

theorem steady_signMSG (sess : Session) (a : LedgerAccount) (v : JSVal) :
    Steady (signMSG sess a v) :=
  steady_bind (steady_emit _) fun _ => steady_liftE _

theorem steady_signTX (sess : Session) (a : LedgerAccount) (v : Buffer) (b : Bool) :
    Steady (signTX sess a v b) :=
  steady_bind (steady_emit _) fun _ => steady_liftE _

theorem steady_getLedgerAccount (w : World) (index : JSVal) :
    Steady (getLedgerAccount w index) := by
  unfold getLedgerAccount
  split
  · exact steady_pure _
  · exact steady_raise _

theorem steady_newDposLedger (sess : Session) : Steady (newDposLedger sess) := by
  unfold newDposLedger
  split
  · exact steady_pure _
  · exact steady_raise _

theorem steady_ifGetPublicKey (sess : Session) (command : JSVal) (a : LedgerAccount)
    (res : JSVal) : Steady (ifGetPublicKey sess command a res) := by
  unfold ifGetPublicKey
  repeat (first
    | exact steady_liftE _
    | exact steady_pure _
    | exact steady_getPubKey _ _ _
    | apply steady_ite
    | refine steady_bind ?_ (fun _ => ?_))

theorem steady_ifGetAddress (sess : Session) (command : JSVal) (a : LedgerAccount)
    (res : JSVal) : Steady (ifGetAddress sess command a res) := by
  unfold ifGetAddress
  repeat (first
    | exact steady_liftE _
    | exact steady_pure _
    | exact steady_getPubKey _ _ _
    | apply steady_ite
    | refine steady_bind ?_ (fun _ => ?_))

theorem steady_ifSignMsg (w : World) (sess : Session) (command : JSVal) (a : LedgerAccount)
    (res : JSVal) : Steady (ifSignMsg w sess command a res) := by
  unfold ifSignMsg winSend
  repeat (first
    | exact steady_liftE _
    | exact steady_pure _
    | exact steady_signMSG _ _ _
    | exact steady_emit _
    | apply steady_ite
    | refine steady_bind ?_ (fun _ => ?_))

theorem steady_ifSignTx (w : World) (sess : Session) (command : JSVal) (a : LedgerAccount)
    (res : JSVal) : Steady (ifSignTx w sess command a res) := by
  unfold ifSignTx winSend
  repeat (first
    | exact steady_liftE _
    | exact steady_pure _
    | exact steady_signTX _ _ _ _
    | exact steady_emit _
    | apply steady_ite
    | refine steady_bind ?_ (fun _ => ?_))

/-- Building and awaiting the vendor request never assigns `busy`. -/
theorem steady_commandRequest (w : World) (sess : Session) (command : JSVal) :
    Steady (commandRequest w sess command) := by
  unfold commandRequest
  repeat (first
    | exact steady_liftE _
    | exact steady_pure _
    | exact steady_newDposLedger _
    | exact steady_getLedgerAccount _ _
    | exact steady_ifGetPublicKey _ _ _ _
    | exact steady_ifGetAddress _ _ _ _
    | exact steady_ifSignMsg _ _ _ _ _
    | exact steady_ifSignTx _ _ _ _ _
    | refine steady_bind ?_ (fun _ => ?_))

/-- The `then` callback is its two parts, run back to back. -/
theorem onOpened_eq_leave_enter (w : World) (t : Nat) (sess : Session) (command : JSVal)
    (s : St) :
    onOpened w t sess command s = commandLeave t sess (commandEnter w sess command s) := by
  simp only [onOpened, commandEnter, bind_run, setBusy, tryCatchM, commandTry]
  cases commandRequest w sess command _ with
  | ok res s1 => simp only [commandLeave, tryCatchM, bind_run, setBusy]
  | throw err s1 => simp only [commandLeave]

/-- The first part of the callback leaves `busy` set. -/
theorem commandEnter_busy (w : World) (sess : Session) (command : JSVal) (s : St) :
    (commandEnter w sess command s).state.busy = true := by
  have h := steady_commandRequest w sess command ⟨true, s.opens, s.devices, s.log⟩
  simpa [commandEnter, setBusy] using h

/-- The second part of the callback leaves `busy` cleared when `close` returns. -/
theorem commandLeave_busy {sess : Session} (t : Nat) (r : Res JSVal)
    (hclose : ∀ k, sess.close k = none) : (commandLeave t sess r).state.busy = false := by
  cases r with
  | ok res s =>
    simp only [commandLeave, tryCatchM, bind_run, transportClose, hclose, setBusy, pure_run,
      Res.state]
  | throw err s =>
    simp only [commandLeave, commandCatch_of_close_ok t err s hclose, Res.state]

/-- A transport that opened is one the world handed out. -/
theorem hidOpen_ok {w : World} {path : JSVal} {s s1 : St} {t : Nat} {sess : Session}
    (h : hidOpen w path s = .ok (t, sess) s1) : w.hidOpen s.opens path = .ok sess := by
  simp only [hidOpen] at h
  cases ho : w.hidOpen s.opens path with
  | error e => simp [ho] at h
  | ok sess1 =>
    simp only [ho, Res.ok.injEq, Prod.mk.injEq] at h
    rw [h.1.2]

/-- Along any interleaving, when no `close` throws: every transport in flight
closes without throwing, and an idle module has `busy` cleared. -/
theorem Flight.run_idle (w : World)
    (hclose : ∀ n path sess, w.hidOpen n path = .ok sess → ∀ k, sess.close k = none)
    (trace : List Step) :
    ∀ (g f : Flight), g.run w trace = some f →
      ((g.inFlight = [] → g.st.busy = false) ∧
        ∀ p ∈ g.inFlight, ∀ k, p.sess.close k = none) →
      (f.inFlight = [] → f.st.busy = false) ∧
        ∀ p ∈ f.inFlight, ∀ k, p.sess.close k = none := by
  induction trace with
  | nil =>
    intro g f hrun hg
    simp only [Flight.run, Option.some.injEq] at hrun
    subst hrun
    exact hg
  | cons st rest ih =>
    intro g f hrun hg
    simp only [Flight.run] at hrun
    cases hs : g.step w st with
    | none => simp [hs] at hrun
    | some g1 =>
      simp only [hs] at hrun
      refine ih g1 f hrun ?_
      cases st with
      | opened c path command =>
        simp only [Flight.step] at hs
        split at hs
        · simp at hs
        · cases ho : hidOpen w path g.st with
          | throw e s1 => simp [ho] at hs
          | ok ts s1 =>
            obtain ⟨t, sess⟩ := ts
            have hsess := hclose _ _ _ (hidOpen_ok ho)
            simp only [ho] at hs
            cases he : commandEnter w sess command s1 with
            | ok res s2 =>
              simp only [he, Option.some.injEq] at hs
              subst hs
              refine ⟨by simp, ?_⟩
              intro p hp
              simp only [List.mem_cons] at hp
              rcases hp with rfl | hp
              · exact hsess
              · exact hg.2 p hp
            | throw err s2 =>
              simp only [he, Option.some.injEq] at hs
              subst hs
              refine ⟨by simp, ?_⟩
              intro p hp
              simp only [List.mem_cons] at hp
              rcases hp with rfl | hp
              · exact hsess
              · exact hg.2 p hp
      | finished c =>
        simp only [Flight.step] at hs
        cases hf : g.inFlight.find? (fun p => p.id == c) with
        | none => simp [hf] at hs
        | some p =>
          simp only [hf, Option.some.injEq] at hs
          subst hs
          have hp : p ∈ g.inFlight := List.mem_of_find?_eq_some hf
          refine ⟨fun _ => commandLeave_busy p.transport _ (hg.2 p hp), ?_⟩
          intro q hq
          exact hg.2 q (List.mem_of_mem_filter hq)

/-- Along an interleaving without overlap, at most one command is in flight,
and `busy` is set while one is. -/
theorem Flight.run_sequential (w : World) (trace : List Step) :
    ∀ (g f : Flight), sequential w g trace = true → g.run w trace = some f →
      ((g.inFlight ≠ [] → g.st.busy = true) ∧ g.inFlight.length ≤ 1) →
      (f.inFlight ≠ [] → f.st.busy = true) ∧ f.inFlight.length ≤ 1 := by
  induction trace with
  | nil =>
    intro g f _ hrun hg
    simp only [Flight.run, Option.some.injEq] at hrun
    subst hrun
    exact hg
  | cons st rest ih =>
    intro g f hseq hrun hg
    simp only [Flight.run] at hrun
    simp only [sequential] at hseq
    cases hs : g.step w st with
    | none => simp [hs] at hrun
    | some g1 =>
      simp only [hs, Bool.and_eq_true] at hrun hseq
      refine ih g1 f hseq.2 hrun ?_
      cases st with
      | opened c path command =>
        have hempty : g.inFlight = [] := by simpa using hseq.1
        simp only [Flight.step] at hs
        split at hs
        · simp at hs
        · cases ho : hidOpen w path g.st with
          | throw e s1 => simp [ho] at hs
          | ok ts s1 =>
            obtain ⟨t, sess⟩ := ts
            have hbusy := commandEnter_busy w sess command s1
            simp only [ho] at hs
            cases he : commandEnter w sess command s1 with
            | ok res s2 =>
              simp only [he, Option.some.injEq] at hs
              subst hs
              rw [he] at hbusy
              exact ⟨fun _ => hbusy, by simp [hempty]⟩
            | throw err s2 =>
              simp only [he, Option.some.injEq] at hs
              subst hs
              rw [he] at hbusy
              exact ⟨fun _ => hbusy, by simp [hempty]⟩
      | finished c =>
        simp only [Flight.step] at hs
        cases hf : g.inFlight.find? (fun p => p.id == c) with
        | none => simp [hf] at hs
        | some p =>
          simp only [hf, Option.some.injEq] at hs
          subst hs
          have hone : g.inFlight = [p] := by
            match hl : g.inFlight, hg.2, List.mem_of_find?_eq_some hf with
            | [x], _, hm =>
              simp only [List.mem_singleton] at hm
              rw [hm]
          have hid : p.id = c := by
            have := List.find?_some hf
            simpa using this
          simp [hone, hid]


/-- C4 (amended): the interleavings are those of the two parts of the `then`
callback of `executeLedgerCommand`, "transport opened" and "command finished",
which run back to back are the callback.  For every interleaving in which no
`transport.close` throws, `busy` is false once no command is in flight; and for
every interleaving in which commands do not overlap, `busy` is true, so the
polling-skip callback returns true, whenever a command has its transport open
and has not yet closed it. -/
theorem busy_tracks_commands_in_flight (w : World) (trace : List Step) (f : Flight)
    (hrun : Flight.init.run w trace = some f) :
    (∀ t sess command s,
        onOpened w t sess command s = commandLeave t sess (commandEnter w sess command s)) ∧
      ((∀ n path sess, w.hidOpen n path = .ok sess → ∀ k, sess.close k = none) →
        f.inFlight = [] → pollingSkip f.st = false) ∧
      (sequential w Flight.init trace = true → f.inFlight ≠ [] → pollingSkip f.st = true) := by
  refine ⟨onOpened_eq_leave_enter w, ?_, ?_⟩
  · intro hclose
    exact (Flight.run_idle w hclose trace Flight.init f hrun
      ⟨fun _ => rfl, fun p hp => by cases hp⟩).1
  · intro hseq
    exact (Flight.run_sequential w trace Flight.init f hseq hrun
      ⟨fun h => absurd rfl h, Nat.zero_le _⟩).1

/-- C4, witness: a command that has opened and waits for the device; and the
same command once it has finished. -/
theorem busy_tracks_commands_in_flight_witness :
    pollingSkip (⟨true, 1, [], [Effect.hidOpen (.str "usb-1"),
        Effect.getPubKey ⟨SupportedCoin.LISK, .num 0⟩ .undefined]⟩ : St) = true ∧
      pollingSkip (⟨false, 1, [], [Effect.hidOpen (.str "usb-1"),
        Effect.getPubKey ⟨SupportedCoin.LISK, .num 0⟩ .undefined, Effect.close 0]⟩ : St) =
        false :=
  ⟨(busy_tracks_commands_in_flight (worldOf (.ok (sessionOf (.ok ()) fun _ => none)))
      [.opened 7 (.str "usb-1") (commandOf "GET_PUBLICKEY")]
      ⟨⟨true, 1, [], [Effect.hidOpen (.str "usb-1"),
          Effect.getPubKey ⟨SupportedCoin.LISK, .num 0⟩ .undefined]⟩,
        [⟨7, 0, sessionOf (.ok ()) fun _ => none, .ok (.str "0a1b2c3d4e5f60718293")⟩]⟩
      rfl).2.2 rfl (by simp),
    (busy_tracks_commands_in_flight (worldOf (.ok (sessionOf (.ok ()) fun _ => none)))
      [.opened 7 (.str "usb-1") (commandOf "GET_PUBLICKEY"), .finished 7]
      ⟨⟨false, 1, [], [Effect.hidOpen (.str "usb-1"),
          Effect.getPubKey ⟨SupportedCoin.LISK, .num 0⟩ .undefined, Effect.close 0]⟩, []⟩
      rfl).2.1 (fun n path sess h k => by cases h; rfl) rfl⟩

/-- C4, counterexample: with two overlapping commands, the first to finish
clears `busy` while the transport of the second is still open; and when
`transport.close` throws in the `catch` block, `busy` stays set with no command
in flight. -/
theorem busy_cleared_while_command_in_flight :
    (¬ ∀ (w : World) (trace : List Step) (f : Flight), Flight.init.run w trace = some f →
        f.inFlight ≠ [] → pollingSkip f.st = true) ∧
      (¬ ∀ (w : World) (trace : List Step) (f : Flight), Flight.init.run w trace = some f →
        f.inFlight = [] → pollingSkip f.st = false) := by
  constructor
  · intro h
    have h1 := h (worldOf (.ok (sessionOf (.ok ()) fun _ => none)))
      [.opened 0 (.str "usb-1") (commandOf "GET_PUBLICKEY"),
        .opened 1 (.str "usb-1") (commandOf "SIGN_MSG"), .finished 0]
      ⟨⟨false, 2, [], [Effect.hidOpen (.str "usb-1"),
          Effect.getPubKey ⟨SupportedCoin.LISK, .num 0⟩ .undefined,
          Effect.hidOpen (.str "usb-1"), Effect.send "ledgerButtonCallback",
          Effect.signMSG ⟨SupportedCoin.LISK, .num 0⟩ (.str "hello"), Effect.close 0]⟩,
        [⟨1, 1, sessionOf (.ok ()) fun _ => none,
          .ok (.str ((worldOf (.ok (sessionOf (.ok ()) fun _ => none))).getBufferToHex
            (List.range 64)))⟩]⟩
      rfl (by simp)
    simp [pollingSkip] at h1
  · intro h
    have h1 := h (worldOf (.ok (sessionOf (.error refusal) fun _ => some plainError)))
      [.opened 0 (.str "usb-1") (commandOf "GET_PUBLICKEY"), .finished 0]
      ⟨⟨true, 1, [], [Effect.hidOpen (.str "usb-1"),
          Effect.getPubKey ⟨SupportedCoin.LISK, .num 0⟩ .undefined, Effect.close 0]⟩, []⟩
      rfl rfl
    simp [pollingSkip] at h1

/-- The account lookup when `open` rejects: `null`, nothing closed. -/
theorem getLiskAccount_open_error {w : World} {path e : JSVal} {s : St}
    (ho : w.hidOpen s.opens path = .error e) :
    getLiskAccount w path s =
      .ok none ⟨s.busy, s.opens + 1, s.devices, s.log ++ [Effect.hidOpen path]⟩ := by
  simp only [getLiskAccount, hidOpen, ho]

/-- The account lookup when `open` resolves and `close` returns: it never
rejects, and it closes the transport once. -/
theorem getLiskAccount_open_ok {w : World} {path : JSVal} {sess : Session} {s : St}
    (ho : w.hidOpen s.opens path = .ok sess) (hclose : ∀ k, sess.close k = none) :
    ∃ r s1, getLiskAccount w path s = .ok r s1 ∧ closeCalls s1.log = closeCalls s.log + 1 := by
  have hq : Quiet (do
      newDposLedger sess
      let ledgerAccount ← getLedgerAccount w (.num 0)
      getPubKey sess ledgerAccount .undefined) := by
    repeat (first
      | exact quiet_newDposLedger _
      | exact quiet_getLedgerAccount _ _
      | exact quiet_getPubKey _ _ _
      | refine Quiet.bind ?_ (fun _ => ?_))
  have h0 := hq ⟨s.busy, s.opens + 1, s.devices, s.log ++ [Effect.hidOpen path]⟩
  simp only [bind_run] at h0
  simp only [getLiskAccount, hidOpen, ho, tryCatchM, bind_run]
  cases h1 : newDposLedger sess ⟨s.busy, s.opens + 1, s.devices, s.log ++ [Effect.hidOpen path]⟩ with
  | throw e s1 =>
    simp only [h1, Res.state] at h0
    simp only [transportClose, hclose, pure_run]
    exact ⟨_, _, rfl, by rw [closeCalls_append_close, h0, closeCalls_append_open]⟩
  | ok u s1 =>
    simp only [h1] at h0
    simp only
    cases h2 : getLedgerAccount w (.num 0) s1 with
    | throw e s2 =>
      simp only [h2, Res.state] at h0
      simp only [transportClose, hclose, pure_run]
      exact ⟨_, _, rfl, by rw [closeCalls_append_close, h0, closeCalls_append_open]⟩
    | ok a s2 =>
      simp only [h2] at h0
      simp only
      cases h3 : getPubKey sess a .undefined s2 with
      | throw e s3 =>
        simp only [h3, Res.state] at h0
        simp only [transportClose, hclose, pure_run]
        exact ⟨_, _, rfl, by rw [closeCalls_append_close, h0, closeCalls_append_open]⟩
      | ok acc s3 =>
        simp only [h3, Res.state] at h0
        simp only [transportClose, hclose, pure_run]
        exact ⟨_, _, rfl, by rw [closeCalls_append_close, h0, closeCalls_append_open]⟩

/-- The account lookup when everything up to `getPubKey` works and `close`
returns: the result of `getPubKey`, or `null` when it rejects. -/
theorem getLiskAccount_of_getPubKey {w : World} {path : JSVal} {sess : Session} {s : St}
    (ho : w.hidOpen s.opens path = .ok sess) (hctor : sess.newDposLedger = none)
    (hacct : w.accountThrows (.num 0) = none) (hclose : ∀ k, sess.close k = none) :
    getLiskAccount w path s =
      .ok (match sess.getPubKey ⟨SupportedCoin.LISK, .num 0⟩ .undefined with
          | .ok acc => some acc
          | .error _ => none)
        ⟨s.busy, s.opens + 1, s.devices, s.log ++ [Effect.hidOpen path,
          Effect.getPubKey ⟨SupportedCoin.LISK, .num 0⟩ .undefined, Effect.close s.opens]⟩ := by
  simp only [getLiskAccount, hidOpen, ho, tryCatchM, bind_run, newDposLedger, hctor, pure_run,
    getLedgerAccount, defaultIndex, hacct, getPubKey, emit]
  cases sess.getPubKey ⟨SupportedCoin.LISK, .num 0⟩ .undefined with
  | ok acc => simp [transportClose, hclose]
  | error e => simp [transportClose, hclose]

/-- C9 (amended): provided `transport.close` does not throw,
`isInsideLedgerApp(path)` never rejects; it resolves to `false` when `open`
rejects (nothing is closed) and when `getPubKey` rejects (the transport is closed
once), and to `isValidAddress` of the address of account 0 when `getPubKey`
answers; whenever the transport had been opened it is closed exactly once. -/
theorem isInsideLedgerApp_resolves (w : World) (path : JSVal) (s : St)
    (hclose : ∀ sess, w.hidOpen s.opens path = .ok sess → ∀ k, sess.close k = none) :
    (∃ b s1, isInsideLedgerApp w path s = .ok b s1 ∧
        ((∃ sess, w.hidOpen s.opens path = .ok sess) → closeCalls s1.log = closeCalls s.log + 1) ∧
        ((∃ e, w.hidOpen s.opens path = .error e) → closeCalls s1.log = closeCalls s.log)) ∧
      (∀ e, w.hidOpen s.opens path = .error e →
        isInsideLedgerApp w path s =
          .ok false ⟨s.busy, s.opens + 1, s.devices, s.log ++ [Effect.hidOpen path]⟩) ∧
      (∀ sess e, w.hidOpen s.opens path = .ok sess → sess.newDposLedger = none →
        w.accountThrows (.num 0) = none →
        sess.getPubKey ⟨SupportedCoin.LISK, .num 0⟩ .undefined = .error e →
        isInsideLedgerApp w path s =
          .ok false ⟨s.busy, s.opens + 1, s.devices, s.log ++ [Effect.hidOpen path,
            Effect.getPubKey ⟨SupportedCoin.LISK, .num 0⟩ .undefined, Effect.close s.opens]⟩) ∧
      (∀ sess acc, w.hidOpen s.opens path = .ok sess → sess.newDposLedger = none →
        w.accountThrows (.num 0) = none →
        sess.getPubKey ⟨SupportedCoin.LISK, .num 0⟩ .undefined = .ok acc →
        isInsideLedgerApp w path s =
          .ok (w.isValidAddress acc.address) ⟨s.busy, s.opens + 1, s.devices,
            s.log ++ [Effect.hidOpen path,
              Effect.getPubKey ⟨SupportedCoin.LISK, .num 0⟩ .undefined,
              Effect.close s.opens]⟩) := by
  refine ⟨?_, ?_, ?_, ?_⟩
  · cases ho : w.hidOpen s.opens path with
    | error e =>
      refine ⟨false, ⟨s.busy, s.opens + 1, s.devices, s.log ++ [Effect.hidOpen path]⟩, ?_, ?_, ?_⟩
      · simp only [isInsideLedgerApp, bind_run, getLiskAccount_open_error ho, pure_run]
      · rintro ⟨sess, hs⟩
        cases hs
      · intro _
        exact closeCalls_append_open s.log path
    | ok sess =>
      obtain ⟨r, s1, hg, hcount⟩ := getLiskAccount_open_ok ho (hclose sess ho)
      cases r with
      | none =>
        refine ⟨false, s1, ?_, fun _ => hcount, ?_⟩
        · simp only [isInsideLedgerApp, bind_run, hg, pure_run]
        · rintro ⟨e, he⟩
          cases he
      | some acc =>
        refine ⟨w.isValidAddress acc.address, s1, ?_, fun _ => hcount, ?_⟩
        · simp only [isInsideLedgerApp, bind_run, hg, pure_run]
        · rintro ⟨e, he⟩
          cases he
  · intro e ho
    simp only [isInsideLedgerApp, bind_run, getLiskAccount_open_error ho, pure_run]
  · intro sess e ho hctor hacct hv
    simp only [isInsideLedgerApp, bind_run,
      getLiskAccount_of_getPubKey ho hctor hacct (hclose sess ho), hv, pure_run]
  · intro sess acc ho hctor hacct hv
    simp only [isInsideLedgerApp, bind_run,
      getLiskAccount_of_getPubKey ho hctor hacct (hclose sess ho), hv, pure_run]

/-- C9, witness: a device inside the Lisk app, with a transport that closes. -/
theorem isInsideLedgerApp_resolves_witness :
    isInsideLedgerApp (worldOf (.ok (sessionOf (.ok ()) fun _ => none))) (.str "usb-1") St.init =
      .ok true ⟨false, 1, [], [Effect.hidOpen (.str "usb-1"),
        Effect.getPubKey ⟨SupportedCoin.LISK, .num 0⟩ .undefined, Effect.close 0]⟩ :=
  (isInsideLedgerApp_resolves (worldOf (.ok (sessionOf (.ok ()) fun _ => none))) (.str "usb-1")
    St.init (fun sess h k => by cases h; rfl)).2.2.2
    (sessionOf (.ok ()) fun _ => none) ⟨"0a1b2c3d4e5f60718293", "123456L"⟩ rfl rfl rfl rfl

/-- C9, counterexample: `getPubKey` rejects and `transport.close` throws in the
`catch` block of `getLiskAccount`; `isInsideLedgerApp` rejects. -/
theorem isInsideLedgerApp_can_reject :
    ¬ ∀ (w : World) (path : JSVal) (s : St), ∃ b s1, isInsideLedgerApp w path s = .ok b s1 := by
  intro h
  obtain ⟨b, s1, h1⟩ := h (worldOf (.ok (sessionOf (.error refusal) fun _ => some plainError)))
    (.str "usb-1") St.init
  have h2 : isInsideLedgerApp (worldOf (.ok (sessionOf (.error refusal) fun _ => some plainError)))
      (.str "usb-1") St.init = .throw plainError ⟨false, 1, [], [Effect.hidOpen (.str "usb-1"),
        Effect.getPubKey ⟨SupportedCoin.LISK, .num 0⟩ .undefined, Effect.close 0]⟩ := rfl
  rw [h2] at h1
  cases h1

/-- C8, the failing input: on darwin a Ledger is plugged in whose `getPubKey`
rejects (the Lisk app is not open); `getLiskAccount` returns `null`,
`createLedgerHWDevice` reads `publicKey` of `null`, and the handler rejects with
the `TypeError`, no device added and nothing sent. -/
theorem ledgerObserver_next_add_reads_null_account :
    ledgerObserver.next (worldOf (.ok (sessionOf (.error plainError) fun _ => none))) "darwin"
        ⟨nanoS, .str "add"⟩ St.init =
      .throw typeError ⟨false, 1, [], [Effect.hidOpen (.str "usb-1"),
        Effect.getPubKey ⟨SupportedCoin.LISK, .num 0⟩ .undefined, Effect.close 0]⟩ :=
  rfl

/-- C7: for a `remove` event with a device, the handler removes the device and
sends `ledgerDisconnected` once exactly when `getDeviceByPath(device.path)` finds
a device, and otherwise does nothing; an event without a device, or of a type
other than `add` and `remove`, does nothing at all. -/
theorem ledgerObserver_next_remove_and_ignored (w : World) (platform : String)
    (ev : DeviceEvent) (s : St) :
    (∀ path, ev.device.truthy = true → ev.type.strictEqStr "remove" = true →
        getProp ev.device "path" = .ok path →
        ((w.getDeviceByPath s.devices path).isSome = true →
          ledgerObserver.next w platform ev s =
            .ok () ⟨s.busy, s.opens, w.removeConnectedDeviceByPath s.devices path,
              s.log ++ [Effect.send "ledgerDisconnected"]⟩) ∧
        ((w.getDeviceByPath s.devices path).isSome = false →
          ledgerObserver.next w platform ev s = .ok () s)) ∧
      (ev.device.truthy = false → ledgerObserver.next w platform ev s = .ok () s) ∧
      (ev.type.strictEqStr "add" = false → ev.type.strictEqStr "remove" = false →
        ledgerObserver.next w platform ev s = .ok () s) := by
  refine ⟨?_, ?_, ?_⟩
  · intro path hd ht hp
    have hadd : ev.type.strictEqStr "add" = false := by
      cases hty : ev.type <;> simp_all [JSVal.strictEqStr]
    constructor
    · intro hfound
      simp [ledgerObserver.next, hd, ht, hadd, hp, getDeviceByPath, hfound,
        removeConnectedDeviceByPath, winSend, emit]
    · intro hnot
      simp [ledgerObserver.next, hd, ht, hadd, hp, getDeviceByPath, hnot]
  · intro hd
    simp [ledgerObserver.next, hd]
  · intro ha hr
    by_cases hd : ev.device.truthy = true
    · simp [ledgerObserver.next, hd, ha, hr]
    · simp [ledgerObserver.next, hd]

/-- C7, witness: removing the one connected device, and an event without a device. -/
theorem ledgerObserver_next_remove_and_ignored_witness :
    ledgerObserver.next (worldOf (.error plainError)) "linux" ⟨nanoS, .str "remove"⟩
        ⟨false, 0, [⟨"0a1b2c3d4e", .null, "Ledger Nano S", .str "usb-1"⟩], []⟩ =
        .ok () ⟨false, 0, [], [Effect.send "ledgerDisconnected"]⟩ ∧
      ledgerObserver.next (worldOf (.error plainError)) "linux" ⟨nanoS, .str "remove"⟩ St.init =
        .ok () St.init ∧
      ledgerObserver.next (worldOf (.error plainError)) "linux" ⟨.undefined, .str "remove"⟩
        St.init = .ok () St.init ∧
      ledgerObserver.next (worldOf (.error plainError)) "linux" ⟨nanoS, .str "change"⟩ St.init =
        .ok () St.init :=
  ⟨((ledgerObserver_next_remove_and_ignored (worldOf (.error plainError)) "linux"
      ⟨nanoS, .str "remove"⟩
      ⟨false, 0, [⟨"0a1b2c3d4e", .null, "Ledger Nano S", .str "usb-1"⟩], []⟩).1
      (.str "usb-1") rfl rfl rfl).1 rfl,
    ((ledgerObserver_next_remove_and_ignored (worldOf (.error plainError)) "linux"
      ⟨nanoS, .str "remove"⟩ St.init).1 (.str "usb-1") rfl rfl rfl).2 rfl,
    (ledgerObserver_next_remove_and_ignored (worldOf (.error plainError)) "linux"
      ⟨.undefined, .str "remove"⟩ St.init).2.1 rfl,
    (ledgerObserver_next_remove_and_ignored (worldOf (.error plainError)) "linux"
      ⟨nanoS, .str "change"⟩ St.init).2.2 rfl rfl⟩

end Ledger

namespace Login

open Ledger

/-- The first ten characters: `substring(0, 10)` keeps the first ten. -/
theorem substring_zero_ten (pk : String) : (substring pk 0 10).data = pk.data.take 10 := by
  simp [substring, List.take_take]

/-- C6: for every public key string `pk`, when the key was read without error,
`ledgerLogin` passes to `activePeerSet` an `hwInfo` with `derivationIndex` 0
whose `deviceId` is the device id that `createLedgerHWDevice` gives the device
of a Lisk account with that public key, namely `pk.substring(0, 10)`, the first
ten characters of `pk`. -/
theorem ledgerLogin_deviceId (env : LoginEnv) (state : LoginState) (error : JSVal)
    (pk address : String) (path : JSVal) (herr : error.truthy = false) :
    ledgerLogin env state error (.str pk) =
        ([.loadingStarted "ledgerLogin",
          .activePeerSet pk env.ledgerNano
            (if state.network = env.customNodeCode
              then setField "address" (.str state.address) (env.getNetwork state.network)
              else env.getNetwork state.network)
            ⟨substring pk 0 10, 0⟩,
          .loadingFinished "ledgerLogin"], none) ∧
      createLedgerHWDevice (some ⟨pk, address⟩) path =
        .ok ⟨substring pk 0 10, .null, "Ledger Nano S", path⟩ ∧
      (substring pk 0 10).data = pk.data.take 10 := by
  refine ⟨?_, rfl, substring_zero_ten pk⟩
  simp only [ledgerLogin, herr]
  rfl

/-- C6, witness: a twenty-character key gives its first ten characters on both sides. -/
theorem ledgerLogin_deviceId_witness :
    ledgerLogin mainnetEnv ⟨"", 0⟩ .undefined (.str "0a1b2c3d4e5f60718293") =
        ([.loadingStarted "ledgerLogin",
          .activePeerSet "0a1b2c3d4e5f60718293" (.num 1) [("code", .num 0)] ⟨"0a1b2c3d4e", 0⟩,
          .loadingFinished "ledgerLogin"], none) ∧
      createLedgerHWDevice (some ⟨"0a1b2c3d4e5f60718293", "123456L"⟩) (.str "usb-1") =
        .ok ⟨"0a1b2c3d4e", .null, "Ledger Nano S", .str "usb-1"⟩ ∧
      (substring "0a1b2c3d4e5f60718293" 0 10).data = "0a1b2c3d4e5f60718293".data.take 10 :=
  ledgerLogin_deviceId mainnetEnv ⟨"", 0⟩ .undefined "0a1b2c3d4e5f60718293" "123456L"
    (.str "usb-1") rfl

/-- A found position is not before the start of the count. -/
theorem indexOfFrom_ge (pat : List Char) (l : List Char) :
    ∀ k : Nat, indexOfFrom pat l k = -1 ∨ (k : Int) ≤ indexOfFrom pat l k := by
  induction l with
  | nil =>
    intro k
    simp only [indexOfFrom]
    split
    · exact Or.inr (le_refl _)
    · exact Or.inl rfl
  | cons c cs ih =>
    intro k
    simp only [indexOfFrom]
    split
    · exact Or.inr (le_refl _)
    · rcases ih (k + 1) with h | h
      · exact Or.inl h
      · exact Or.inr (by omega)

/-- The test `s.indexOf(pat) === 0` is "s starts with pat". -/
theorem indexOfFrom_eq_zero (pat l : List Char) :
    indexOfFrom pat l 0 = 0 ↔ ∃ t, l = pat ++ t := by
  cases l with
  | nil =>
    simp only [indexOfFrom]
    cases pat with
    | nil => simp
    | cons p ps => simp
  | cons c cs =>
    simp only [indexOfFrom]
    by_cases hpre : pat.isPrefixOf (c :: cs) = true
    · simp only [hpre, if_true, Nat.cast_zero, true_iff]
      obtain ⟨t, ht⟩ := List.isPrefixOf_iff_prefix.mp hpre
      exact ⟨t, ht.symm⟩
    · have hfalse : pat.isPrefixOf (c :: cs) = false := Bool.eq_false_iff.mpr hpre
      simp only [hfalse, Bool.false_eq_true, if_false]
      constructor
      · intro h
        rcases indexOfFrom_ge pat cs (0 + 1) with h1 | h1
        · rw [h1] at h
          cases h
        · rw [h] at h1
          simp at h1
      · rintro ⟨t, ht⟩
        exact absurd (List.isPrefixOf_iff_prefix.mpr ⟨t, ht.symm⟩) hpre

/-- The test `s.indexOf(pat) === 0` on strings. -/
theorem indexOf_eq_zero (s pat : String) : indexOf s pat = 0 ↔ ∃ rest : String, s = pat ++ rest := by
  unfold indexOf
  rw [indexOfFrom_eq_zero]
  constructor
  · rintro ⟨t, ht⟩
    exact ⟨String.mk t, String.ext (by simp [ht])⟩
  · rintro ⟨rest, hr⟩
    exact ⟨rest.data, by rw [hr]; simp⟩

/-- Removing the first occurrence: what is before and after it is kept. -/
theorem replaceFirst_first (pat : List Char) :
    ∀ (a l b : List Char), l = a ++ pat ++ b →
      (∀ a2 b2, l = a2 ++ pat ++ b2 → a.length ≤ a2.length) →
      replaceFirst pat [] l = a ++ b := by
  intro a
  induction a with
  | nil =>
    intro l b hl _
    subst hl
    cases hpb : [] ++ pat ++ b with
    | nil =>
      simp only [List.nil_append, List.append_eq_nil] at hpb
      simp [replaceFirst, hpb.1, hpb.2]
    | cons c cs =>
      have hpre : pat.isPrefixOf (c :: cs) = true :=
        List.isPrefixOf_iff_prefix.mpr ⟨b, by simpa using hpb⟩
      simp only [replaceFirst, hpre, if_true, List.nil_append]
      rw [← hpb]
      simp
  | cons x a1 ih =>
    intro l b hl hmin
    subst hl
    have hpre : ¬ pat.isPrefixOf (x :: (a1 ++ pat ++ b)) = true := by
      intro h
      obtain ⟨t, ht⟩ := List.isPrefixOf_iff_prefix.mp h
      have := hmin [] t (by simpa using ht.symm)
      simp at this
    have hfalse : pat.isPrefixOf (x :: (a1 ++ pat ++ b)) = false := Bool.eq_false_iff.mpr hpre
    show replaceFirst pat [] (x :: (a1 ++ pat ++ b)) = x :: (a1 ++ b)
    simp only [replaceFirst, hfalse, Bool.false_eq_true, if_false, List.cons.injEq, true_and]
    refine ih (a1 ++ pat ++ b) b rfl ?_
    intro a2 b2 h2
    have := hmin (x :: a2) b2 (by simp [h2])
    simpa using this

/-- Without an occurrence nothing is replaced. -/
theorem replaceFirst_absent (pat repl : List Char) :
    ∀ l : List Char, (∀ a b, l ≠ a ++ pat ++ b) → replaceFirst pat repl l = l := by
  intro l
  induction l with
  | nil =>
    intro h
    have hne : pat ≠ [] := by
      intro hp
      exact h [] [] (by simp [hp])
    cases pat with
    | nil => exact absurd rfl hne
    | cons p ps => simp [replaceFirst]
  | cons c cs ih =>
    intro h
    have hpre : ¬ pat.isPrefixOf (c :: cs) = true := by
      intro hp
      obtain ⟨t, ht⟩ := List.isPrefixOf_iff_prefix.mp hp
      exact h [] t (by simpa using ht.symm)
    have hfalse : pat.isPrefixOf (c :: cs) = false := Bool.eq_false_iff.mpr hpre
    simp only [replaceFirst, hfalse, Bool.false_eq_true, if_false, List.cons.injEq, true_and]
    refine ih ?_
    intro a b hab
    exact h (c :: a) b (by simp [hab])

/-- Removing the first occurrence, on strings. -/
theorem replace_first (s pat a b : String) (hs : s = a ++ pat ++ b)
    (hmin : ∀ a2 b2 : String, s = a2 ++ pat ++ b2 → a.length ≤ a2.length) :
    replace s pat "" = a ++ b := by
  apply String.ext
  rw [String.data_append]
  show replaceFirst pat.data [] s.data = a.data ++ b.data
  refine replaceFirst_first pat.data a.data s.data b.data (by rw [hs]; simp) ?_
  intro a2 b2 h2
  exact hmin (String.mk a2) (String.mk b2) (String.ext (by simp [h2]))

/-- Without an occurrence `replace` returns the string itself. -/
theorem replace_absent (s pat repl : String) (h : ¬ ∃ a b : String, s = a ++ pat ++ b) :
    replace s pat repl = s := by
  apply String.ext
  show replaceFirst pat.data repl.data s.data = s.data
  refine replaceFirst_absent pat.data repl.data s.data ?_
  intro a b hab
  exact h ⟨String.mk a, String.mk b, String.ext (by simp [hab])⟩

/-- C10: `getReferrerRoute` returns `/main/transactions` when the search string
does not start with `?referrer`, and otherwise the search string with its first
`?referrer=` removed, except that for an account that is not a delegate the
route `/main/forging` is replaced by `/main/transactions`, so that it is never
returned for such an account. -/
theorem getReferrerRoute_route (isDelegate : JSVal) (search : String) :
    ((¬ ∃ rest : String, search = "?referrer" ++ rest) →
        getReferrerRoute isDelegate search = "/main/transactions") ∧
      ((∃ rest : String, search = "?referrer" ++ rest) →
        (isDelegate.truthy = true ∨ replace search "?referrer=" "" ≠ "/main/forging") →
        getReferrerRoute isDelegate search = replace search "?referrer=" "") ∧
      ((∃ rest : String, search = "?referrer" ++ rest) → isDelegate.truthy = false →
        replace search "?referrer=" "" = "/main/forging" →
        getReferrerRoute isDelegate search = "/main/transactions") ∧
      (isDelegate.truthy = false → getReferrerRoute isDelegate search ≠ "/main/forging") ∧
      (∀ a b : String, search = a ++ "?referrer=" ++ b →
        (∀ a2 b2 : String, search = a2 ++ "?referrer=" ++ b2 → a.length ≤ a2.length) →
        replace search "?referrer=" "" = a ++ b) ∧
      ((¬ ∃ a b : String, search = a ++ "?referrer=" ++ b) →
        replace search "?referrer=" "" = search) := by
  refine ⟨?_, ?_, ?_, ?_, ?_, ?_⟩
  · intro h
    have h0 : ¬ indexOf search "?referrer" = 0 := fun h1 => h ((indexOf_eq_zero _ _).mp h1)
    simp [getReferrerRoute, h0]
  · intro h hcase
    have h0 : indexOf search "?referrer" = 0 := (indexOf_eq_zero _ _).mpr h
    rcases hcase with hd | hr
    · simp [getReferrerRoute, h0, hd]
    · simp [getReferrerRoute, h0, hr]
  · intro h hd hr
    have h0 : indexOf search "?referrer" = 0 := (indexOf_eq_zero _ _).mpr h
    simp [getReferrerRoute, h0, hd, hr]
  · intro hd
    by_cases h0 : indexOf search "?referrer" = 0
    · by_cases hr : replace search "?referrer=" "" = "/main/forging"
      · simp [getReferrerRoute, h0, hd, hr]
      · simp [getReferrerRoute, h0, hd, hr]
    · simp [getReferrerRoute, h0, hd]
  · intro a b hs hmin
    exact replace_first search "?referrer=" a b hs hmin
  · intro h
    exact replace_absent search "?referrer=" "" h

/-- C10, witness: no referrer; a referrer for a delegate; the forging route for
an account that is not a delegate. -/
theorem getReferrerRoute_route_witness :
    getReferrerRoute (.bool true) "" = "/main/transactions" ∧
      getReferrerRoute (.bool true) "?referrer=/main/forging" = "/main/forging" ∧
      getReferrerRoute .undefined "?referrer=/main/forging" = "/main/transactions" ∧
      getReferrerRoute .undefined "?referrer=/main/voting" ≠ "/main/forging" :=
  ⟨(getReferrerRoute_route (.bool true) "").1 (by
      rintro ⟨rest, h⟩
      have h1 : "".length = "?referrer".length + rest.length := by
        rw [← String.length_append, ← h]
      have h2 : "".length = 0 := rfl
      have h3 : "?referrer".length = 9 := rfl
      omega),
    (getReferrerRoute_route (.bool true) "?referrer=/main/forging").2.1
      ⟨"=/main/forging", rfl⟩ (Or.inl rfl),
    (getReferrerRoute_route .undefined "?referrer=/main/forging").2.2.1
      ⟨"=/main/forging", rfl⟩ rfl rfl,
    (getReferrerRoute_route .undefined "?referrer=/main/voting").2.2.2.1 rfl⟩

end Login
